import Mathlib

/-! # arkXtest / uitest: the extern-api dispatch core and the widget-interaction engine

A shallow embedding of `uitest/core/extern_api.h` and `uitest/core/extern_api.cpp`:
the error model (`ErrCode`, `ApiCallErr`), the handler chain of `ExternApiServer`,
the transaction envelope built by `ApiTransact` and the typed marshalling functions
`GetItemValueFromJson` and `PushBackValueItemIntoJson`; followed by a model of the
widget-interaction engine (`UiDriver`, selectors, controller registry), whose sources are
not among the source files and which is modelled from the specification.

Conventions of the embedding.

* `nlohmann::json` values are the inductive type `Json`; the library entry points
  `json::parse` and `json::dump` are parameters (`parse`, `dump`) of the definitions
  that use them, a failed parse returning the `what()` text of the exception.
* `GetErrorName` is declared in `extern_api.h` and defined elsewhere; it is a parameter.
* A handler is a C function pointer, here an address (`Nat`, `nullptr = 0`); the
  parameter `code` maps an address to the behaviour of the function stored there.
* Reference parameters and the global `g_untrackedApiTransactError` are passed
  explicitly: a handler maps the memory it can write (`Mem`) to the memory it leaves,
  together with its return value or the exception it raised.
* Logging (`LOG_D`, `LOG_W`) has no effect on the state and is left out.
* A definition whose comment starts with "Modelled from the spec" stands for a part that is
  not among the source files; the scroll search, a loop, is bounded by a number of rounds.
-/

namespace OHOS.uitest

/-! ## Error model (`extern_api.h`) -/

/-- The enumeration `ErrCode : uint8_t`. -/
inductive ErrCode where
  | NO_ERROR
  | INTERNAL_ERROR
  | WIDGET_LOST
  | USAGE_ERROR
  deriving DecidableEq, Repr

/-- The numeric value of an enumerator, as fixed in the declaration of `ErrCode`. -/
def ErrCode.toNat : ErrCode → Nat
  | .NO_ERROR => 0
  | .INTERNAL_ERROR => 1
  | .WIDGET_LOST => 2
  | .USAGE_ERROR => 4

/-- The class `ApiCallErr`: an error code and a message. -/
structure ApiCallErr where
  code_ : ErrCode
  message_ : String
  deriving DecidableEq, Repr

/-- The constructor `ApiCallErr(ErrCode ec, std::string_view msg)`. -/
def ApiCallErr.new (GetErrorName : ErrCode → String) (ec : ErrCode) (msg : String) : ApiCallErr :=
  { code_ := ec, message_ := "[" ++ GetErrorName ec ++ "]:" ++ msg }

/-- The delegating constructor `explicit ApiCallErr(ErrCode ec) : ApiCallErr(ec, "")`. -/
def ApiCallErr.ofCode (GetErrorName : ErrCode → String) (ec : ErrCode) : ApiCallErr :=
  ApiCallErr.new GetErrorName ec ""

/-! ## JSON values -/

/-- A `nlohmann::json` value. Objects are kept as key-sorted association lists, the order
of `std::map<std::string, json>`. -/
inductive Json where
  | null
  | bool (b : Bool)
  | int (n : Int)
  | flt (bits : Nat)
  | str (s : String)
  | arr (items : List Json)
  | obj (members : List (String × Json))
  deriving Repr, Inhabited

/-- Insert-or-assign into the sorted member list of an object; keys are ordered as their
character sequences, lexicographically. -/
def objSet : List (String × Json) → String → Json → List (String × Json)
  | [], k, v => [(k, v)]
  | (k0, v0) :: rest, k, v =>
    if k = k0 then (k, v) :: rest
    else if k.data < k0.data then (k, v) :: (k0, v0) :: rest
    else (k0, v0) :: objSet rest k v

/-- Look a key up in the member list of an object. -/
def objFind : List (String × Json) → String → Option Json
  | [], _ => none
  | (k0, v0) :: rest, k => if k = k0 then some v0 else objFind rest k

/-- The assignment `j[key] = v`: a null value first becomes an empty object, an object gets
the member inserted or replaced, any other value raises `type_error`. -/
def Json.set : Json → String → Json → Except String Json
  | .null, k, v => .ok (.obj [(k, v)])
  | .obj ms, k, v => .ok (.obj (objSet ms k v))
  | _, _, _ => .error "[json.exception.type_error.305] cannot use operator[] with a string argument"

/-- The member stored under `key`, when the value is an object that has one. -/
def Json.find : Json → String → Option Json
  | .obj ms, k => objFind ms k
  | _, _ => none

/-- The test `j.contains(key)`. -/
def Json.contains (j : Json) (k : String) : Bool :=
  (j.find k).isSome

/-- Modelled from the spec: the constant `KEY_UPDATED_CALLER` of `common_defines.h`, which is
not part of the sources; the envelope names the key `updatedCaller`. -/
def KEY_UPDATED_CALLER : String := "updatedCaller"

/-- Modelled from the spec: the constant `KEY_RESULT_VALUES` of `common_defines.h`; the
envelope names the key `resultValues`. -/
def KEY_RESULT_VALUES : String := "resultValues"

/-- Modelled from the spec: the constant `KEY_EXCEPTION` of `common_defines.h`; the envelope
names the key `exception`. -/
def KEY_EXCEPTION : String := "exception"

/-- Modelled from the spec: the constant `KEY_CODE` of `common_defines.h`; the exception
object names the key `code`. -/
def KEY_CODE : String := "code"

/-- Modelled from the spec: the constant `KEY_MESSAGE` of `common_defines.h`; the exception
object names the key `message`. -/
def KEY_MESSAGE : String := "message"

/-! ## Handlers and the handler chain (`ExternApiServer`) -/

/-- The function-pointer type `ApiRequstHandler`, as the address of the function. -/
abbrev ApiRequstHandler := Nat

/-- The null function pointer. -/
def nullptr : ApiRequstHandler := 0

/-- What a handler may write: the reference parameters `callerObj`, `out` and `err`, and the
global `g_untrackedApiTransactError`. -/
structure Mem where
  caller : Json
  out : Json
  err : ApiCallErr
  untracked : ApiCallErr

/-- How an invocation of a handler ends: it returns a `bool`, or it raises an exception
derived from `std::exception` whose `what()` is the given text. -/
inductive HandlerRet where
  | ret (accepted : Bool)
  | raise (what : String)
  deriving DecidableEq, Repr

/-- The behaviour of a handler `bool (*)(function, callerObj, in, out, err)`: from the
function id, the constant `in` and the writable memory to the memory it leaves and the way
it ended. Writes made before an exception is raised stay in the memory. -/
abbrev HandlerFn := String → Json → Mem → Mem × HandlerRet

/-- One entry of the invocation trace: which handler ran and how it ended. -/
structure Invocation where
  handler : ApiRequstHandler
  ret : HandlerRet
  deriving DecidableEq, Repr

/-- The class `ExternApiServer`: the list `handlers_`. -/
structure ExternApiServer where
  handlers_ : List ApiRequstHandler
  deriving DecidableEq, Repr

/-- The server before any registration. -/
def ExternApiServer.empty : ExternApiServer := { handlers_ := [] }

/-- The method `ExternApiServer::AddHandler`. -/
def ExternApiServer.AddHandler (s : ExternApiServer) (handler : ApiRequstHandler) :
    ExternApiServer :=
  if handler = nullptr then s
  else { handlers_ := s.handlers_ ++ [handler] }

/-- The method `ExternApiServer::RemoveHandler` (`remove_if` followed by `erase`). -/
def ExternApiServer.RemoveHandler (s : ExternApiServer) (handler : ApiRequstHandler) :
    ExternApiServer :=
  { handlers_ := s.handlers_.filter (fun hdl => !(hdl == handler)) }

/-- The memory left by a call together with the trace of the handlers it invoked. -/
structure CallResult where
  mem : Mem
  invoked : List Invocation

/-- The loop of `ExternApiServer::Call` over the remaining handlers. -/
def callLoop (GetErrorName : ErrCode → String) (code : ApiRequstHandler → HandlerFn)
    (api : String) (input : Json) : List ApiRequstHandler → Mem → CallResult
  | [], m =>
    { mem := { m with err := ApiCallErr.new GetErrorName .INTERNAL_ERROR
                        ("No handler found for extern-api: " ++ api) },
      invoked := [] }
  | handler :: rest, m =>
    match code handler api input m with
    | (m1, .ret true) => { mem := m1, invoked := [⟨handler, .ret true⟩] }
    | (m1, .ret false) =>
      let r := callLoop GetErrorName code api input rest m1
      { mem := r.mem, invoked := ⟨handler, .ret false⟩ :: r.invoked }
    | (m1, .raise what) =>
      { mem := { m1 with err := ApiCallErr.new GetErrorName .INTERNAL_ERROR
                          ("Exception raised when handling '" ++ api ++ "':" ++ what) },
        invoked := [⟨handler, .raise what⟩] }

/-- The method `ExternApiServer::Call`. -/
def ExternApiServer.Call (GetErrorName : ErrCode → String) (code : ApiRequstHandler → HandlerFn)
    (s : ExternApiServer) (apiId : String) (input : Json) (m : Mem) : CallResult :=
  callLoop GetErrorName code apiId input s.handlers_ m

/-! ## The transaction envelope (`ApiTransact`) -/

/-- The locals and the global after the `try`/`catch` statement of `ApiTransact`. -/
structure TryState where
  returnData : Json
  error : ApiCallErr
  untracked : ApiCallErr
  invoked : List Invocation

/-- The `catch (exception &ex)` clause of `ApiTransact`. -/
def transactCatch (GetErrorName : ErrCode → String) (returnData : Json) (untracked : ApiCallErr)
    (invoked : List Invocation) (what : String) : TryState :=
  { returnData := returnData,
    error := ApiCallErr.new GetErrorName .INTERNAL_ERROR
      ("Convert transaction parameters failed: " ++ what),
    untracked := untracked,
    invoked := invoked }

/-- The `try`/`catch` statement of `ApiTransact`, entered with `error`, `out`, `returnData`
and the global in the given state. -/
def transactTry (GetErrorName : ErrCode → String) (parse : String → Except String Json)
    (code : ApiRequstHandler → HandlerFn) (server : ExternApiServer)
    (funcStr callerStr paramsStr : String)
    (error : ApiCallErr) (out returnData : Json) (untracked : ApiCallErr) : TryState :=
  match parse callerStr with
  | .error what => transactCatch GetErrorName returnData untracked [] what
  | .ok caller =>
    match parse paramsStr with
    | .error what => transactCatch GetErrorName returnData untracked [] what
    | .ok input =>
      let r := server.Call GetErrorName code funcStr input
        { caller := caller, out := out, err := error, untracked := untracked }
      match returnData.set KEY_UPDATED_CALLER r.mem.caller with
      | .error what => transactCatch GetErrorName returnData r.mem.untracked r.invoked what
      | .ok rd1 =>
        match rd1.set KEY_RESULT_VALUES r.mem.out with
        | .error what => transactCatch GetErrorName rd1 r.mem.untracked r.invoked what
        | .ok rd2 =>
          { returnData := rd2, error := r.mem.err, untracked := r.mem.untracked,
            invoked := r.invoked }

/-- The statement `if (error.code_ < g_untrackedApiTransactError.code_) error = ...`. -/
def applyUntracked (error untracked : ApiCallErr) : ApiCallErr :=
  if error.code_.toNat < untracked.code_.toNat then untracked else error

/-- The statement `if (error.code_ != NO_ERROR) { ... }` that delivers the exception; an
exception raised by one of the three assignments leaves the function. -/
def deliverException (GetErrorName : ErrCode → String) (returnData : Json) (error : ApiCallErr) :
    Except String Json :=
  if error.code_ ≠ .NO_ERROR then do
    let e1 ← Json.null.set KEY_CODE (.str (GetErrorName error.code_))
    let exceptionInfo ← e1.set KEY_MESSAGE (.str error.message_)
    returnData.set KEY_EXCEPTION exceptionInfo
  else
    .ok returnData

/-- What a run of `ApiTransact` leaves: the returned string, the object `returnData` it was
dumped from, the final value of the local `error`, the global
`g_untrackedApiTransactError` and the trace of invoked handlers. -/
structure TransactResult where
  ret : String
  returnData : Json
  error : ApiCallErr
  untracked : ApiCallErr
  invoked : List Invocation

/-- An assignment to a variable that holds `old`: the variable then holds `new`. -/
def overwrite {α : Type} (_old new : α) : α := new

/-- The function `ApiTransact`, run with the singleton server in state `server` and with
the global `g_untrackedApiTransactError` holding `entry` when the function is entered. The
result is `Except.error` when an exception leaves the function. -/
def ApiTransact (GetErrorName : ErrCode → String) (parse : String → Except String Json)
    (dump : Json → String) (code : ApiRequstHandler → HandlerFn) (server : ExternApiServer)
    (entry : ApiCallErr) (funcStr callerStr paramsStr : String) :
    Except String TransactResult :=
  let g_untrackedApiTransactError := overwrite entry (ApiCallErr.ofCode GetErrorName .NO_ERROR)
  let error := ApiCallErr.ofCode GetErrorName .NO_ERROR
  let out := Json.arr []
  let returnData := Json.null
  let t := transactTry GetErrorName parse code server funcStr callerStr paramsStr
    error out returnData g_untrackedApiTransactError
  let error := applyUntracked t.error t.untracked
  match deliverException GetErrorName t.returnData error with
  | .error what => .error what
  | .ok returnData =>
    .ok { ret := dump returnData, returnData := returnData, error := error,
          untracked := t.untracked, invoked := t.invoked }

/-! ## Auxiliary notions used to state the properties -/

/-- Whether an invocation ended with an exception. -/
def HandlerRet.raised : HandlerRet → Bool
  | .raise _ => true
  | .ret _ => false

/-- The memory left after the given handlers ran one after the other from `m`. -/
def memAfter (code : ApiRequstHandler → HandlerFn) (api : String) (input : Json) :
    List ApiRequstHandler → Mem → Mem
  | [], m => m
  | h :: rest, m => memAfter code api input rest (code h api input m).1

/-- Whether each of the given handlers, run one after the other from `m`, returns false. -/
def allDecline (code : ApiRequstHandler → HandlerFn) (api : String) (input : Json) :
    List ApiRequstHandler → Mem → Bool
  | [], _ => true
  | h :: rest, m =>
    decide ((code h api input m).2 = .ret false) &&
      allDecline code api input rest (code h api input m).1

/-- The object `exceptionInfo` that `ApiTransact` builds for an error. -/
def exceptionInfoOf (GetErrorName : ErrCode → String) (error : ApiCallErr) : Json :=
  .obj [(KEY_CODE, .str (GetErrorName error.code_)), (KEY_MESSAGE, .str error.message_)]

/-- The state in which `ApiTransact` enters its `try` statement and, when both texts parse,
dispatches: the parsed caller, an empty `out`, no local error, and the global just reset. -/
def entryMem (GetErrorName : ErrCode → String) (caller : Json) : Mem :=
  { caller := caller, out := .arr [],
    err := ApiCallErr.ofCode GetErrorName .NO_ERROR,
    untracked := ApiCallErr.ofCode GetErrorName .NO_ERROR }

/-- The state after the `try`/`catch` statement of a run of `ApiTransact`. -/
def afterTry (GetErrorName : ErrCode → String) (parse : String → Except String Json)
    (code : ApiRequstHandler → HandlerFn) (server : ExternApiServer)
    (funcStr callerStr paramsStr : String) : TryState :=
  transactTry GetErrorName parse code server funcStr callerStr paramsStr
    (ApiCallErr.ofCode GetErrorName .NO_ERROR) (.arr []) .null
    (ApiCallErr.ofCode GetErrorName .NO_ERROR)

/-! ## Sample environment for closed instances -/

/-- Modelled from the spec: the table of `GetErrorName`, whose definition is not part of the
sources (section 6, error name mapping). -/
def specErrorName : ErrCode → String
  | .NO_ERROR => "NO_ERROR"
  | .INTERNAL_ERROR => "ERROR"
  | .WIDGET_LOST => "WIDGET_LOST"
  | .USAGE_ERROR => "USAGE_ERROR"

/-- A finite sample of the graph of `json::parse`: the listed texts are valid JSON and
parse to the given values, the empty text is rejected with a parse error (as is, here,
every text that is not listed). -/
def sampleParse : String → Except String Json
  | "null" => .ok .null
  | "[]" => .ok (.arr [])
  | "true" => .ok (.bool true)
  | "7" => .ok (.int 7)
  | "[\x7b\"type\":4,\"value\":\"x\"\x7d]" =>
    .ok (.arr [.obj [("type", .int 4), ("value", .str "x")]])
  | _ => .error "[json.exception.parse_error.101] parse error"

/-- A stand-in for `json::dump` on the values met in the closed instances: it tells the
kinds of value apart and lists the keys of an object. -/
def sampleDump : Json → String
  | .null => "null"
  | .bool b => if b then "true" else "false"
  | .int _ => "<int>"
  | .flt _ => "<float>"
  | .str s => s
  | .arr _ => "<array>"
  | .obj ms => String.intercalate "," (ms.map (fun kv => kv.1))

/-- Sample handlers. Address 1 appends a marker to `out` and declines; address 2 replaces
the caller and accepts; address 3 appends a marker to `out` and raises; address 4 records an
untracked `WIDGET_LOST` and declines; address 5 sets `err` to a `USAGE_ERROR` and accepts;
address 6 records an untracked `INTERNAL_ERROR` and declines; every other address declines
without writing. -/
def sampleCode : ApiRequstHandler → HandlerFn
  | 1 => fun _ _ m =>
    ({ m with out := match m.out with
                     | .arr xs => .arr (xs ++ [.int 1])
                     | j => j }, .ret false)
  | 2 => fun _ _ m => ({ m with caller := .str "updated" }, .ret true)
  | 3 => fun _ _ m =>
    ({ m with out := match m.out with
                     | .arr xs => .arr (xs ++ [.int 3])
                     | j => j }, .raise "type must be number")
  | 4 => fun _ _ m =>
    ({ m with untracked := ApiCallErr.new specErrorName .WIDGET_LOST "lost" }, .ret false)
  | 5 => fun _ _ m =>
    ({ m with err := ApiCallErr.new specErrorName .USAGE_ERROR "bad key" }, .ret true)
  | 6 => fun _ _ m =>
    ({ m with untracked := ApiCallErr.new specErrorName .INTERNAL_ERROR "deep" }, .ret false)
  | _ => fun _ _ m => (m, .ret false)

/-- A memory with a null caller, an empty `out` and no error. -/
def sampleMem : Mem :=
  { caller := .null, out := .arr [],
    err := ApiCallErr.ofCode specErrorName .NO_ERROR,
    untracked := ApiCallErr.ofCode specErrorName .NO_ERROR }

/-! ## Typed marshalling (`GetItemValueFromJson`, `PushBackValueItemIntoJson`) -/

/-- Modelled from the spec: the enumeration `TypeId` of `common_defines.h`, which is not part
of the sources; the wire format fixes the tags BOOL=1, INT=2, FLOAT=3, STRING=4, BY=5,
WIDGET=6, RECT=7, the last being the enumerator `RECT_JSON` used by the code. -/
inductive TypeId where
  | BOOL
  | INT
  | FLOAT
  | STRING
  | BY
  | WIDGET
  | RECT_JSON
  deriving DecidableEq, Repr

/-- The numeric value of a type tag. -/
def TypeId.toNat : TypeId → Nat
  | .BOOL => 1
  | .INT => 2
  | .FLOAT => 3
  | .STRING => 4
  | .BY => 5
  | .WIDGET => 6
  | .RECT_JSON => 7

/-- Modelled from the spec: the constant `KEY_DATA_TYPE` of `common_defines.h`; a value
object names the key `type`. -/
def KEY_DATA_TYPE : String := "type"

/-- Modelled from the spec: the constant `KEY_DATA_VALUE` of `common_defines.h`; a value
object names the key `value`. -/
def KEY_DATA_VALUE : String := "value"

/-- Modelled from the spec: the macro `DCHECK` of `common_defines.h`, which is not part of
the sources. A check that holds has no effect; a check that does not hold is fatal for the
operation: it fails with an exception, which the dispatch loop turns into an error. -/
def DCHECK (cond : Bool) : Except String Unit :=
  if cond then .ok () else .error "DCHECK failed"

/-- The widths of the integral types. -/
inductive IntWidth where
  | w8
  | w16
  | w32
  | w64
  deriving DecidableEq, Repr

/-- An integral type other than `bool`: its signedness and its width. -/
structure IntType where
  signed : Bool
  width : IntWidth
  deriving DecidableEq, Repr

/-- The number of bits of an integral type. -/
def IntType.bits (t : IntType) : Nat :=
  match t.width with
  | .w8 => 8
  | .w16 => 16
  | .w32 => 32
  | .w64 => 64

/-- The type `uint32_t`. -/
def IntType.uint32 : IntType := { signed := false, width := .w32 }

/-- The type `int32_t`. -/
def IntType.int32 : IntType := { signed := true, width := .w32 }

/-- Whether an integer is a value of the type. -/
def IntType.inRange (t : IntType) (v : Int) : Prop :=
  if t.signed then -(2 : Int) ^ (t.bits - 1) ≤ v ∧ v < (2 : Int) ^ (t.bits - 1)
  else 0 ≤ v ∧ v < (2 : Int) ^ t.bits

/-- The conversion `static_cast<T>` of an integer to the type: reduction modulo `2 ^ bits`
into the range of the type. -/
def IntType.wrap (t : IntType) (v : Int) : Int :=
  if t.signed then (v + (2 : Int) ^ (t.bits - 1)) % (2 : Int) ^ t.bits - (2 : Int) ^ (t.bits - 1)
  else v % (2 : Int) ^ t.bits

/-- The implicit conversion of a `size_t` to the parameter type `uint32_t`. -/
def toUInt32 (n : Nat) : Nat := n % 2 ^ 32

/-- The conversions of the JSON library between numbers of different kinds (a number read
from a floating-point or boolean payload, a `float` read from any number), which are not
modelled: parameters. A floating-point value is given by its bit pattern. -/
structure NumLib where
  intOf : IntType → Json → Except String Int
  floatOf : Json → Except String Nat

/-- The requested type `T` of `GetItemValueFromJson<T>`. -/
inductive ValType where
  | bool
  | int (t : IntType)
  | float
  | string
  | json
  deriving DecidableEq, Repr

/-- A value returned by `GetItemValueFromJson<T>`. -/
inductive Value where
  | bool (b : Bool)
  | int (n : Int)
  | float (bits : Nat)
  | string (s : String)
  | json (j : Json)

/-- The method `size()`: 0 for null, the number of items or members of an array or object,
1 for any other value. -/
def Json.size : Json → Nat
  | .null => 0
  | .arr xs => xs.length
  | .obj ms => ms.length
  | _ => 1

/-- The method `at(index)`: the item of an array, `out_of_range` past its end, `type_error`
on a value that is not an array. -/
def Json.at : Json → Nat → Except String Json
  | .arr xs, i =>
    match xs[i]? with
    | some x => .ok x
    | none => .error "[json.exception.out_of_range.401] array index is out of range"
  | _, _ => .error "[json.exception.type_error.304] cannot use at()"

/-- The read `item[key]` on a constant value: the member of an object, `type_error` on a
value that is not an object. The library asserts that the key is present; an absent key is
modelled as a failure. -/
def Json.atKey : Json → String → Except String Json
  | .obj ms, k =>
    match objFind ms k with
    | some v => .ok v
    | none => .error "assertion failed: key not found"
  | _, _ => .error "[json.exception.type_error.305] cannot use operator[] with a string argument"

/-- The conversion of a JSON value to `bool`: only a boolean converts. -/
def Json.getBool : Json → Except String Bool
  | .bool b => .ok b
  | _ => .error "[json.exception.type_error.302] type must be boolean"

/-- The conversion of a JSON value to an integral type: an integer is cast to the type; a
boolean or floating-point number is converted by the library; anything else is a
`type_error`. -/
def Json.getInt (lib : NumLib) (t : IntType) : Json → Except String Int
  | .int n => .ok (t.wrap n)
  | .bool b => lib.intOf t (.bool b)
  | .flt x => lib.intOf t (.flt x)
  | _ => .error "[json.exception.type_error.302] type must be number"

/-- The conversion of a JSON value to `float`: numbers and booleans are converted by the
library; anything else is a `type_error`. -/
def Json.getFloat (lib : NumLib) : Json → Except String Nat
  | .int n => lib.floatOf (.int n)
  | .bool b => lib.floatOf (.bool b)
  | .flt x => lib.floatOf (.flt x)
  | _ => .error "[json.exception.type_error.302] type must be number"

/-- The conversion of a JSON value to `std::string`: only a string converts. -/
def Json.getString : Json → Except String String
  | .str s => .ok s
  | _ => .error "[json.exception.type_error.302] type must be string"

/-- The function template `GetItemValueFromJson<T>(data, index)`, `index` being a value of
`uint32_t`. The result is `Except.error` when the read fails with an exception. -/
def GetItemValueFromJson (lib : NumLib) (T : ValType) (data : Json) (index : Nat) :
    Except String Value := do
  DCHECK (decide (0 ≤ index) && decide (index < data.size))
  let item ← data.at index
  let typeId ← (item.atKey KEY_DATA_TYPE) >>= Json.getInt lib IntType.uint32
  match T with
  | .bool =>
    DCHECK (decide (typeId = TypeId.BOOL.toNat))
    let value ← (item.atKey KEY_DATA_VALUE) >>= Json.getBool
    return .bool value
  | .int t =>
    DCHECK (decide (typeId = TypeId.INT.toNat))
    let value ← (item.atKey KEY_DATA_VALUE) >>= Json.getInt lib t
    return .int value
  | .float =>
    DCHECK (decide (typeId = TypeId.FLOAT.toNat))
    let value ← (item.atKey KEY_DATA_VALUE) >>= Json.getFloat lib
    return .float value
  | .string =>
    DCHECK (decide (typeId = TypeId.STRING.toNat))
    let value ← (item.atKey KEY_DATA_VALUE) >>= Json.getString
    return .string value
  | .json =>
    DCHECK (decide ((TypeId.BY.toNat : Int) ≤ typeId) &&
      decide (typeId ≤ (TypeId.RECT_JSON.toNat : Int)))
    let value ← item.atKey KEY_DATA_VALUE
    return .json value

/-- An object of a class derived from `ExternApiBase`: what its `GetTypeId()` returns and
what its `WriteIntoParcel(data)` leaves in `data`. -/
structure ExternApiObj where
  GetTypeId : TypeId
  WriteIntoParcel : Json → Json

/-- The argument `value` of `PushBackValueItemIntoJson<T>` together with its type `T`; an
integer argument is a value of its type, a `float` is given by its bit pattern. -/
inductive PushArg where
  | bool (b : Bool)
  | int (t : IntType) (n : Int)
  | float (bits : Nat)
  | string (s : String)
  | api (obj : ExternApiObj)

/-- The method `push_back(item)`: a null value first becomes an empty array, an array gets
the item appended, any other value raises `type_error`. -/
def Json.push_back : Json → Json → Except String Json
  | .null, item => .ok (.arr [item])
  | .arr xs, item => .ok (.arr (xs ++ [item]))
  | _, _ => .error "[json.exception.type_error.308] cannot use push_back()"

/-- The function template `PushBackValueItemIntoJson<T>(value, out)`: the array `out` after
the call, or the exception that left it. -/
def PushBackValueItemIntoJson (value : PushArg) (out : Json) : Except String Json := do
  let item := Json.null
  let item ← match value with
    | .bool b => do
      let item ← item.set KEY_DATA_TYPE (.int (TypeId.BOOL.toNat : Nat))
      item.set KEY_DATA_VALUE (.bool b)
    | .int _ n => do
      let item ← item.set KEY_DATA_TYPE (.int (TypeId.INT.toNat : Nat))
      item.set KEY_DATA_VALUE (.int n)
    | .float x => do
      let item ← item.set KEY_DATA_TYPE (.int (TypeId.FLOAT.toNat : Nat))
      item.set KEY_DATA_VALUE (.flt x)
    | .string s => do
      let item ← item.set KEY_DATA_TYPE (.int (TypeId.STRING.toNat : Nat))
      item.set KEY_DATA_VALUE (.str s)
    | .api obj => do
      let item ← item.set KEY_DATA_TYPE (.int (obj.GetTypeId.toNat : Nat))
      let objData := obj.WriteIntoParcel Json.null
      item.set KEY_DATA_VALUE objData
  out.push_back item

/-- A stand-in for the unmodelled numeric conversions in closed instances, none of which
reaches them. -/
def sampleNumLib : NumLib :=
  { intOf := fun _ _ => .error "conversion not modelled",
    floatOf := fun _ => .error "conversion not modelled" }

/-- The value object `{type: BOOL, value: false}`. -/
def falseItem : Json :=
  .obj [(KEY_DATA_TYPE, .int (TypeId.BOOL.toNat : Nat)), (KEY_DATA_VALUE, .bool false)]

/-- An array of `2 ^ 32` value objects, each holding the boolean `false`. -/
def fullArray : List Json := List.replicate 4294967296 falseItem

/-- Whether a type tag, as read from an item, is one that `GetItemValueFromJson<T>` checks
for: `BOOL` for `bool`, `INT` for an integral type, `FLOAT` for `float`, `STRING` for a
string, a tag from `BY` to `RECT_JSON` for an object blob. -/
def ValType.acceptsTag : ValType → Int → Bool
  | .bool, tag => decide (tag = TypeId.BOOL.toNat)
  | .int _, tag => decide (tag = TypeId.INT.toNat)
  | .float, tag => decide (tag = TypeId.FLOAT.toNat)
  | .string, tag => decide (tag = TypeId.STRING.toNat)
  | .json, tag => decide ((TypeId.BY.toNat : Int) ≤ tag) && decide (tag ≤ (TypeId.RECT_JSON.toNat : Int))

/-- Sample handlers that read their first parameter as an `int32_t` and let a failure of
the read leave as an exception: address 7 first records an untracked `WIDGET_LOST`, address
8 does not; the other addresses are those of `sampleCode`. -/
def readerCode : ApiRequstHandler → HandlerFn
  | 7 => fun _ input m =>
    match GetItemValueFromJson sampleNumLib (.int IntType.int32) input 0 with
    | .error what =>
      ({ m with untracked := ApiCallErr.new specErrorName .WIDGET_LOST "lost" }, .raise what)
    | .ok _ =>
      ({ m with untracked := ApiCallErr.new specErrorName .WIDGET_LOST "lost" }, .ret true)
  | 8 => fun _ input m =>
    match GetItemValueFromJson sampleNumLib (.int IntType.int32) input 0 with
    | .error what => (m, .raise what)
    | .ok _ => (m, .ret true)
  | h => sampleCode h

/-- The value object `{type: STRING, value: "x"}`, as parsed by `sampleParse`. -/
def stringItem : Json := .obj [("type", .int 4), ("value", .str "x")]

/-- The value object `\x7btype: 4294967297, value: true\x7d`: its tag is `2 ^ 32 + 1`. -/
def wideTagItem : Json := .obj [("type", .int 4294967297), ("value", .bool true)]

/-! ## The widget-interaction engine, modelled from the specification

The sources of `UiDriver`, of the selectors and of the controller registry are not among the
source files (only `ui_controller.h` and the test `uidriver_test.cpp` are); the definitions
of this section follow sections 3 and 4 of the specification. -/

/-- Modelled from the spec: `Rect` (section 3), integer pixels. -/
structure Rect where
  left : Int
  top : Int
  right : Int
  bottom : Int
  deriving DecidableEq, Repr

/-- Modelled from the spec: a rectangle is valid when `left ≤ right` and `top ≤ bottom`. -/
def Rect.valid (r : Rect) : Prop := r.left ≤ r.right ∧ r.top ≤ r.bottom

/-- Modelled from the spec: the horizontal centre `(left + right) / 2`. -/
def Rect.centerX (r : Rect) : Int := (r.left + r.right) / 2

/-- Modelled from the spec: the vertical centre `(top + bottom) / 2`. -/
def Rect.centerY (r : Rect) : Int := (r.top + r.bottom) / 2

/-- Modelled from the spec: the height `bottom - top`. -/
def Rect.height (r : Rect) : Int := r.bottom - r.top

/-- Modelled from the spec: a DOM node (section 3): its attribute map, the rectangle parsed
from `bounds` when the attribute is present, and its children in order. A snapshot is its
root node. -/
inductive Node where
  | mk (attributes : List (String × String)) (bounds : Option Rect) (children : List Node)
  deriving Repr, Inhabited

/-- The attribute map of a node. -/
def Node.attributes : Node → List (String × String)
  | .mk a _ _ => a

/-- The parsed bounds of a node. -/
def Node.bounds : Node → Option Rect
  | .mk _ b _ => b

/-- The children of a node. -/
def Node.children : Node → List Node
  | .mk _ _ cs => cs

mutual
/-- Modelled from the spec: two snapshots are identical when they have the same content
(structural equality over attributes and children, the byte equality of the serialized
form). -/
def Node.same : Node → Node → Bool
  | .mk a b cs, .mk a2 b2 cs2 => decide (a = a2) && decide (b = b2) && Node.sameList cs cs2
/-- Whether two lists of nodes are identical item by item. -/
def Node.sameList : List Node → List Node → Bool
  | [], [] => true
  | c :: cs, d :: ds => Node.same c d && Node.sameList cs ds
  | _, _ => false
end

mutual
/-- Modelled from the spec: the nodes of a tree in pre-order (parent before children,
children in declared order). -/
def Node.preorder : Node → List Node
  | .mk a b cs => .mk a b cs :: Node.preorderList cs
/-- The nodes of a list of trees in pre-order. -/
def Node.preorderList : List Node → List Node
  | [] => []
  | c :: cs => Node.preorder c ++ Node.preorderList cs
end

/-- The value of an attribute in an attribute map. -/
def attrValue : List (String × String) → String → Option String
  | [], _ => none
  | (k0, v0) :: rest, k => if k = k0 then some v0 else attrValue rest k

/-- Modelled from the spec: the operators of an attribute matcher. -/
inductive ValueMatchRule where
  | EQ
  | CONTAINS
  | STARTS_WITH
  | ENDS_WITH
  deriving DecidableEq, Repr

/-- Modelled from the spec: an attribute matcher `(key, value, op)`. -/
structure WidgetAttrMatcher where
  key : String
  value : String
  op : ValueMatchRule
  deriving DecidableEq, Repr

/-- Modelled from the spec: whether an attribute value matches; `EQ` compares the full
value, the other operators are case-sensitive substring tests. -/
def WidgetAttrMatcher.matchesValue (m : WidgetAttrMatcher) (v : String) : Bool :=
  match m.op with
  | .EQ => decide (v = m.value)
  | .CONTAINS => v.data.tails.any (fun t => m.value.data.isPrefixOf t)
  | .STARTS_WITH => m.value.data.isPrefixOf v.data
  | .ENDS_WITH => m.value.data.isSuffixOf v.data

/-- Modelled from the spec: a selector, the ordered conjunctive list of its matchers. -/
structure WidgetSelector where
  matchers : List WidgetAttrMatcher
  deriving DecidableEq, Repr

/-- Modelled from the spec: `AddMatcher(m)` appends. -/
def WidgetSelector.AddMatcher (s : WidgetSelector) (m : WidgetAttrMatcher) : WidgetSelector :=
  { matchers := s.matchers ++ [m] }

/-- Modelled from the spec: a node satisfies a selector when every matcher matches one of
its attributes; a missing attribute does not match. -/
def WidgetSelector.satisfiedBy (s : WidgetSelector) (n : Node) : Bool :=
  s.matchers.all (fun m =>
    match attrValue n.attributes m.key with
    | some v => m.matchesValue v
    | none => false)

/-- Modelled from the spec: `FindAll(snapshot)`, all satisfying nodes in pre-order. -/
def WidgetSelector.FindAll (s : WidgetSelector) (snapshot : Node) : List Node :=
  snapshot.preorder.filter (fun n => s.satisfiedBy n)

/-- Modelled from the spec: a widget image: the attributes of one node and its `hashcode`
taken at find-time (empty when the node has none), the description of the selector that
produced it and that selector, by which it is resolved again. The bounds are those parsed
from the attributes held. -/
structure WidgetImage where
  attributes : List (String × String)
  bounds : Option Rect
  hashcode : String
  selectionDesc : String
  selector : WidgetSelector
  deriving DecidableEq, Repr

/-- The image built by the default constructor `WidgetImage()`. -/
def WidgetImage.empty : WidgetImage :=
  { attributes := [], bounds := none, hashcode := "", selectionDesc := "",
    selector := { matchers := [] } }

/-- Modelled from the spec: the image materialized for a match, capturing all attributes and
the selector description. -/
def WidgetImage.ofNode (Describe : WidgetSelector → String) (s : WidgetSelector) (n : Node) :
    WidgetImage :=
  { attributes := n.attributes, bounds := n.bounds,
    hashcode := (attrValue n.attributes "hashcode").getD "",
    selectionDesc := Describe s, selector := s }

/-- Modelled from the spec: the nodes of a snapshot that re-resolve an image: those with the
image's `hashcode` when it has one, else those that satisfy its original selector. -/
def WidgetImage.candidates (img : WidgetImage) (snapshot : Node) : List Node :=
  if img.hashcode ≠ "" then
    snapshot.preorder.filter (fun n => decide (attrValue n.attributes "hashcode" = some img.hashcode))
  else img.selector.FindAll snapshot

/-- Modelled from the spec: the node an image resolves to in a snapshot, if any; the spec
speaks of one node, with several candidates the first in pre-order is taken. -/
def WidgetImage.resolve (img : WidgetImage) (snapshot : Node) : Option Node :=
  (img.candidates snapshot).head?

/-- Modelled from the spec: the image with its attribute map replaced by the fresh one. -/
def WidgetImage.refresh (img : WidgetImage) (n : Node) : WidgetImage :=
  { img with attributes := n.attributes, bounds := n.bounds }

/-- Modelled from the spec: the type of a touch event. -/
inductive ActionStage where
  | DOWN
  | MOVE
  | UP
  deriving DecidableEq, Repr

/-- Modelled from the spec: a touch event `(point, type, holdMs, flagsIdleBefore)`. -/
structure TouchEvent where
  px : Int
  py : Int
  stage : ActionStage
  holdMs : Nat
  flagsIdleBefore : Bool
  deriving DecidableEq, Repr

/-- The enumeration `Priority` of `ui_controller.h`. -/
inductive Priority where
  | HIGH
  | MEDIUM
  | LOW
  deriving DecidableEq, Repr

/-- The numeric value of a priority. -/
def Priority.toNat : Priority → Nat
  | .HIGH => 3
  | .MEDIUM => 2
  | .LOW => 1

/-- The class `UiController` of `ui_controller.h` with the state of the device behind it:
`GetCurrentUiDom i` is the snapshot served by the call number `i` of `GetCurrentUiDom`,
`domCalls` counts the calls made, `touchLog` lists the sequences passed to
`InjectTouchEventSequence`, and `workable` is the answer of `IsWorkable()`. -/
structure UiController where
  name_ : String
  targetDevice_ : String
  priority_ : Priority
  workable : Bool
  GetCurrentUiDom : Nat → Node
  domCalls : Nat
  touchLog : List (List TouchEvent)

/-- The class `MockController` of `uidriver_test.cpp` after `SetDomFrames(frames)`: it serves
the frames in order and then the last one again; its `GetConsumedDomFrameCount()` is
`domCalls`. (With no frame at all the test controller raises; an empty node stands for it.) -/
def MockController (frames : List Node) : UiController :=
  { name_ := "mock_controller", targetDevice_ := "", priority_ := .MEDIUM, workable := true,
    GetCurrentUiDom := fun i => frames.getD (min i (frames.length - 1)) (.mk [] none []),
    domCalls := 0, touchLog := [] }

/-- The vector `touch_event_records` of `uidriver_test.cpp`: `InjectTouchEventSequence` of
the test controller replaces it by the sequence passed, so it holds the last one. -/
def touch_event_records (c : UiController) : List TouchEvent :=
  c.touchLog.getLast?.getD []

/-- The loop of `uidriver_test.cpp` that finds `maxCyEventIndex`: the first index of an event
with the greatest `py`. The state is `(maxCyEventIndex, index)`. -/
def maxCyEventIndex (records : List TouchEvent) : Nat :=
  (records.foldl (fun (st : Nat × Nat) event =>
    (if event.py > (records.map (fun e => e.py)).getD st.1 0 then st.2 else st.1, st.2 + 1))
    (0, 0)).1

/-- Modelled from the spec: `GetController(device)`, the first workable controller of the
registry whose target device is empty or equals `device`. -/
def UiController.GetController (controllers_ : List UiController) (targetDevice : String) :
    Option UiController :=
  controllers_.find? (fun c =>
    c.workable && (decide (c.targetDevice_ = "") || decide (c.targetDevice_ = targetDevice)))

/-- Modelled from the spec: `RemoveController(name)` removes all entries with the name. -/
def UiController.RemoveController (controllers_ : List UiController) (name : String) :
    List UiController :=
  controllers_.filter (fun c => !(decide (c.name_ = name)))

/-- Modelled from the spec: `RegisterController(c, priority)` adds the controller, the list
staying sorted by priority, highest first, and by registration order among equals. -/
def UiController.RegisterController (controllers_ : List UiController) (c : UiController)
    (priority : Priority) : List UiController :=
  controllers_.filter (fun c0 => decide (priority.toNat ≤ c0.priority_.toNat)) ++
    [{ c with priority_ := priority }] ++
    controllers_.filter (fun c0 => decide (c0.priority_.toNat < priority.toNat))

/-- One call of `GetCurrentUiDom`: the snapshot served and the controller after the call. -/
def UiController.fetchDom (c : UiController) : Node × UiController :=
  (c.GetCurrentUiDom c.domCalls, { c with domCalls := c.domCalls + 1 })

/-- One call of `InjectTouchEventSequence`. -/
def UiController.InjectTouchEventSequence (c : UiController) (events : List TouchEvent) :
    UiController :=
  { c with touchLog := c.touchLog ++ [events] }

/-- Modelled from the spec: the widget operations of `PerformWidgetOperate`. -/
inductive WidgetOp where
  | CLICK
  | LONG_CLICK
  | DOUBLE_CLICK
  deriving DecidableEq, Repr

/-- Modelled from the spec: the class `UiDriver`, constructed with a target-device string. -/
structure UiDriver where
  device : String
  deriving DecidableEq, Repr

/-- What an operation run on a controller leaves: its value, the error, the controller. -/
structure OnOutcome (α : Type) where
  value : α
  err : ApiCallErr
  controller : UiController

/-- What a driver operation leaves: its value, the error, and the controller that served
it, if there was one. -/
structure DriverOutcome (α : Type) where
  value : α
  err : ApiCallErr
  controller : Option UiController

/-- Modelled from the spec: every driver operation first acquires the controller of its
device; with none it fails `INTERNAL_ERROR` with "no usable UiController". -/
def UiDriver.withController {α : Type} (GetErrorName : ErrCode → String)
    (controllers_ : List UiController) (driver : UiDriver) (unchanged : α)
    (run : UiController → OnOutcome α) : DriverOutcome α :=
  match UiController.GetController controllers_ driver.device with
  | none =>
    { value := unchanged,
      err := ApiCallErr.new GetErrorName .INTERNAL_ERROR "no usable UiController",
      controller := none }
  | some c =>
    { value := (run c).value, err := (run c).err, controller := some (run c).controller }

/-- Modelled from the spec: the error of a failed re-resolution, `WIDGET_LOST` with a
message containing the selection description (the spec fixes no other wording). -/
def lostError (GetErrorName : ErrCode → String) (img : WidgetImage) : ApiCallErr :=
  ApiCallErr.new GetErrorName .WIDGET_LOST ("Widget is lost: " ++ img.selectionDesc)

/-- Modelled from the spec: the error of an operation on a node without bounds, which is
not interactable: `USAGE_ERROR`. -/
def notInteractableError (GetErrorName : ErrCode → String) : ApiCallErr :=
  ApiCallErr.new GetErrorName .USAGE_ERROR "Widget has no bounds"

/-- Modelled from the spec: `FindWidgets(selector)` on the acquired controller: fetch a
snapshot, run `FindAll`, materialize an image for each match. -/
def findWidgetsOn (Describe : WidgetSelector → String) (selector : WidgetSelector)
    (err : ApiCallErr) (c : UiController) : OnOutcome (List WidgetImage) :=
  { value := (selector.FindAll c.fetchDom.1).map (WidgetImage.ofNode Describe selector),
    err := err, controller := c.fetchDom.2 }

/-- Modelled from the spec: the operation `FindWidgets`. -/
def UiDriver.FindWidgets (GetErrorName : ErrCode → String) (Describe : WidgetSelector → String)
    (controllers_ : List UiController) (driver : UiDriver) (selector : WidgetSelector)
    (err : ApiCallErr) : DriverOutcome (List WidgetImage) :=
  driver.withController GetErrorName controllers_ [] (findWidgetsOn Describe selector err)

/-- Modelled from the spec: `UpdateWidgetImage(image)` on the acquired controller: take a
snapshot and resolve the image in it; a resolved image gets the fresh attributes, an
unresolved one fails `WIDGET_LOST`. -/
def updateWidgetImageOn (GetErrorName : ErrCode → String) (image : WidgetImage)
    (err : ApiCallErr) (c : UiController) : OnOutcome WidgetImage :=
  match image.resolve c.fetchDom.1 with
  | some node => { value := image.refresh node, err := err, controller := c.fetchDom.2 }
  | none => { value := image, err := lostError GetErrorName image, controller := c.fetchDom.2 }

/-- Modelled from the spec: the operation `UpdateWidgetImage`. -/
def UiDriver.UpdateWidgetImage (GetErrorName : ErrCode → String)
    (controllers_ : List UiController) (driver : UiDriver) (image : WidgetImage)
    (err : ApiCallErr) : DriverOutcome WidgetImage :=
  driver.withController GetErrorName controllers_ image (updateWidgetImageOn GetErrorName image err)

/-- Modelled from the spec: the event sequence of a widget operation at a point: a click is
`DOWN` then `UP` at the point 60 ms apart, a long click holds 1500 ms, a double click is two
clicks separated by a short gap. -/
def opEvents (op : WidgetOp) (x y : Int) : List TouchEvent :=
  match op with
  | .CLICK =>
    [{ px := x, py := y, stage := .DOWN, holdMs := 60, flagsIdleBefore := false },
     { px := x, py := y, stage := .UP, holdMs := 0, flagsIdleBefore := false }]
  | .LONG_CLICK =>
    [{ px := x, py := y, stage := .DOWN, holdMs := 1500, flagsIdleBefore := false },
     { px := x, py := y, stage := .UP, holdMs := 0, flagsIdleBefore := false }]
  | .DOUBLE_CLICK =>
    [{ px := x, py := y, stage := .DOWN, holdMs := 60, flagsIdleBefore := false },
     { px := x, py := y, stage := .UP, holdMs := 60, flagsIdleBefore := false },
     { px := x, py := y, stage := .DOWN, holdMs := 60, flagsIdleBefore := false },
     { px := x, py := y, stage := .UP, holdMs := 0, flagsIdleBefore := false }]

/-- Modelled from the spec: `PerformWidgetOperate(image, op)` on the acquired controller:
refresh the image and propagate its error; the target is the centre of the refreshed bounds
(a node without bounds is not interactable); synthesize the events and inject them. -/
def performWidgetOperateOn (GetErrorName : ErrCode → String) (image : WidgetImage)
    (op : WidgetOp) (err : ApiCallErr) (c : UiController) : OnOutcome WidgetImage :=
  match image.resolve c.fetchDom.1 with
  | none => { value := image, err := lostError GetErrorName image, controller := c.fetchDom.2 }
  | some node =>
    match (image.refresh node).bounds with
    | none =>
      { value := image.refresh node, err := notInteractableError GetErrorName,
        controller := c.fetchDom.2 }
    | some b =>
      { value := image.refresh node, err := err,
        controller := c.fetchDom.2.InjectTouchEventSequence (opEvents op b.centerX b.centerY) }

/-- Modelled from the spec: the operation `PerformWidgetOperate`. -/
def UiDriver.PerformWidgetOperate (GetErrorName : ErrCode → String)
    (controllers_ : List UiController) (driver : UiDriver) (image : WidgetImage)
    (op : WidgetOp) (err : ApiCallErr) : DriverOutcome WidgetImage :=
  driver.withController GetErrorName controllers_ image
    (performWidgetOperateOn GetErrorName image op err)

/-- Modelled from the spec: a scroll gesture on the subject's bounds: `moves + 2` events on
the vertical line through the centre, the first `DOWN`, the last `UP`, the others `MOVE`; in
phase 1 (`up`) the pointer goes from the top to the bottom of the bounds, in phase 2 from the
bottom to the top, in equal steps. The number of intermediate events is not fixed by the
spec. -/
def scrollGesture (moves : Nat) (b : Rect) (up : Bool) : List TouchEvent :=
  (List.range (moves + 2)).map (fun (k : Nat) =>
    { px := b.centerX,
      py := if up then b.top + (b.height * (k : Int)) / ((moves : Int) + 1)
            else b.bottom - (b.height * (k : Int)) / ((moves : Int) + 1),
      stage := if k = 0 then .DOWN else if k = moves + 1 then .UP else .MOVE,
      holdMs := 0, flagsIdleBefore := false })

/-- How one phase of the scroll search ends: with the outcome of the search, or frozen, with
the boundary snapshot, the refreshed subject and the controller. -/
inductive PhaseEnd where
  | done (outcome : OnOutcome (Option WidgetImage))
  | frozen (boundary : Node) (subject : WidgetImage) (c : UiController)

/-- Modelled from the spec: one phase of `ScrollSearch`, entered with the snapshot `cur` in
which the subject was resolved. Each round searches the target in the current snapshot and
returns the first match; otherwise it issues one scroll gesture on the subject's bounds,
fetches the next snapshot, resolves the subject in it (`WIDGET_LOST` when it is gone), and
ends the phase when the snapshot is identical to the one before. The rounds are bounded by
`fuel`; `none` means that the bound was reached. -/
def scrollPhase (GetErrorName : ErrCode → String) (Describe : WidgetSelector → String)
    (moves : Nat) (target : WidgetSelector) (err : ApiCallErr) (up : Bool) :
    Nat → Node → WidgetImage → UiController → Option PhaseEnd
  | 0, _, _, _ => none
  | fuel + 1, cur, subject, c =>
    match target.FindAll cur with
    | hit :: _ =>
      some (.done { value := some (WidgetImage.ofNode Describe target hit), err := err,
                    controller := c })
    | [] =>
      match subject.bounds with
      | none =>
        some (.done { value := none, err := notInteractableError GetErrorName, controller := c })
      | some b =>
        match subject.resolve
            (c.InjectTouchEventSequence (scrollGesture moves b up)).fetchDom.1 with
        | none =>
          some (.done { value := none, err := lostError GetErrorName subject,
                        controller := (c.InjectTouchEventSequence
                          (scrollGesture moves b up)).fetchDom.2 })
        | some node =>
          if Node.same (c.InjectTouchEventSequence (scrollGesture moves b up)).fetchDom.1 cur
          then
            some (.frozen (c.InjectTouchEventSequence (scrollGesture moves b up)).fetchDom.1
              (subject.refresh node)
              (c.InjectTouchEventSequence (scrollGesture moves b up)).fetchDom.2)
          else
            scrollPhase GetErrorName Describe moves target err up fuel
              (c.InjectTouchEventSequence (scrollGesture moves b up)).fetchDom.1
              (subject.refresh node)
              (c.InjectTouchEventSequence (scrollGesture moves b up)).fetchDom.2

/-- Modelled from the spec: `ScrollSearch(subject, target, err, startOffset)` on the acquired
controller: refresh the subject (`WIDGET_LOST` on failure), search upward until the snapshot
is frozen, then downward until it is frozen again, and return null without error when the
target was not met. The spec gives `startOffset` no role; it is carried and not used. Each
phase runs at most `fuel` rounds; `none` means that the bound was reached. -/
def scrollSearchOn (GetErrorName : ErrCode → String) (Describe : WidgetSelector → String)
    (moves : Nat) (fuel : Nat) (subject : WidgetImage) (target : WidgetSelector)
    (err : ApiCallErr) (_startOffset : Int) (c : UiController) :
    Option (OnOutcome (Option WidgetImage)) :=
  match subject.resolve c.fetchDom.1 with
  | none =>
    some { value := none, err := lostError GetErrorName subject, controller := c.fetchDom.2 }
  | some node =>
    match scrollPhase GetErrorName Describe moves target err true fuel c.fetchDom.1
        (subject.refresh node) c.fetchDom.2 with
    | none => none
    | some (.done outcome) => some outcome
    | some (.frozen boundary subject1 c1) =>
      match scrollPhase GetErrorName Describe moves target err false fuel boundary subject1 c1 with
      | none => none
      | some (.done outcome) => some outcome
      | some (.frozen _ _ c2) => some { value := none, err := err, controller := c2 }

/-- Modelled from the spec: the operation `ScrollSearch`. -/
def UiDriver.ScrollSearch (GetErrorName : ErrCode → String) (Describe : WidgetSelector → String)
    (moves : Nat) (fuel : Nat) (controllers_ : List UiController) (driver : UiDriver)
    (subject : WidgetImage) (target : WidgetSelector) (err : ApiCallErr) (startOffset : Int) :
    Option (DriverOutcome (Option WidgetImage)) :=
  match UiController.GetController controllers_ driver.device with
  | none =>
    some { value := none,
           err := ApiCallErr.new GetErrorName .INTERNAL_ERROR "no usable UiController",
           controller := none }
  | some c =>
    match scrollSearchOn GetErrorName Describe moves fuel subject target err startOffset c with
    | none => none
    | some outcome =>
      some { value := outcome.value, err := outcome.err, controller := some outcome.controller }

/-- The stream of snapshots that a controller serves from now on: `framesFrom c j` is the
snapshot of the call number `j` counted from the next one. -/
def framesFrom (c : UiController) (j : Nat) : Node :=
  c.GetCurrentUiDom (c.domCalls + j)

/-- The number of frames among the frames 1 to `n` of a stream that are identical to their
predecessor. -/
def frozenCount (f : Nat → Node) : Nat → Nat
  | 0 => 0
  | n + 1 => frozenCount f n + (if Node.same (f (n + 1)) (f n) then 1 else 0)

/-- The bounds of the node to which an image resolves in a snapshot (the empty rectangle at
the origin when it resolves to none, or to a node without bounds). -/
def subjectBounds (subject : WidgetImage) (snapshot : Node) : Rect :=
  ((subject.resolve snapshot).bind Node.bounds).getD
    { left := 0, top := 0, right := 0, bottom := 0 }

/-- The scroll gesture that belongs to frame `j` of a stream of snapshots: a gesture on the
bounds of the subject in that frame, upward as long as no frame up to `j` is identical to its
predecessor, downward from the first such frame on. -/
def gestureAt (moves : Nat) (subject : WidgetImage) (f : Nat → Node) (j : Nat) :
    List TouchEvent :=
  scrollGesture moves (subjectBounds subject (f j)) (decide (frozenCount f j = 0))

/-- The y-coordinate `records.at(idx).point_.py_` of the event at an index. -/
def cyAt (records : List TouchEvent) (idx : Nat) : Int :=
  (records.map (fun e => e.py)).getD idx 0

/-- The y-coordinates of a sequence of events do not decrease from one event to the next. -/
def yAscending (records : List TouchEvent) : Prop :=
  ∀ idx, idx + 1 < records.length → cyAt records idx ≤ cyAt records (idx + 1)

/-- The y-coordinates of a sequence of events do not increase from one event to the next. -/
def yDescending (records : List TouchEvent) : Prop :=
  ∀ idx, idx + 1 < records.length → cyAt records (idx + 1) ≤ cyAt records idx

/-- The y-coordinates of a sequence of events do not decrease before the event that the loop
of the test finds as the one of greatest y, and do not increase from it on. -/
def yUnimodal (records : List TouchEvent) : Prop :=
  ∀ idx, idx + 1 < records.length →
    (idx < maxCyEventIndex records → cyAt records idx ≤ cyAt records (idx + 1)) ∧
    (maxCyEventIndex records ≤ idx → cyAt records (idx + 1) ≤ cyAt records idx)

/-- The assertions of the test `scrollSearchCheckDirection` of `uidriver_test.cpp` on the
recorded events: they are not empty, before the index `maxCyEventIndex` each y is less than
the next one, and after it each y is greater than the next one. -/
def checkDirection (records : List TouchEvent) : Bool :=
  !records.isEmpty &&
  (List.range (records.length - 1)).all (fun idx =>
    if idx < maxCyEventIndex records then
      decide (cyAt records idx < cyAt records (idx + 1))
    else if idx > maxCyEventIndex records then
      decide (cyAt records idx > cyAt records (idx + 1))
    else true)

/-- Sample description of a selector: the keys and values of its matchers. -/
def sampleDescribe (s : WidgetSelector) : String :=
  String.intercalate ";" (s.matchers.map (fun m => m.key ++ "=" ++ m.value))

/-- The selector with the single matcher `text EQ value`. -/
def textSelector (value : String) : WidgetSelector :=
  { matchers := [{ key := "text", value := value, op := .EQ }] }

/-- The frames of the test `retrieveWidgetFailure`: a root with bounds `[0,0][100,100]` and
one child of the given text with bounds `[0,0][50,50]`, without hashcode. -/
def childFrame (text : String) : Node :=
  .mk [("text", ""), ("bounds", "[0,0][100,100]")]
    (some { left := 0, top := 0, right := 100, bottom := 100 })
    [.mk [("text", text), ("bounds", "[0,0][50,50]")]
      (some { left := 0, top := 0, right := 50, bottom := 50 }) []]

/-- The image that `FindWidgets(text EQ "USB")` produces on `childFrame "USB"`. -/
def usbImage : WidgetImage :=
  WidgetImage.ofNode sampleDescribe (textSelector "USB")
    (.mk [("text", "USB"), ("bounds", "[0,0][50,50]")]
      (some { left := 0, top := 0, right := 50, bottom := 50 }) [])

/-- The state at the start of a round of the scroll search that inspects frame `i` of the
stream served by `c`: the subject `s` is the original one refreshed in that frame, and the
controller `ci` is `c` after `i + 1` snapshots and the gestures of the frames before `i`. -/
structure RoundInv (moves : Nat) (c : UiController) (subject : WidgetImage) (i : Nat)
    (s : WidgetImage) (ci : UiController) : Prop where
  hash : s.hashcode = subject.hashcode
  sel : s.selector = subject.selector
  desc : s.selectionDesc = subject.selectionDesc
  bnd : ∃ node, subject.resolve (framesFrom c i) = some node ∧ s.bounds = node.bounds
  dom : ci.GetCurrentUiDom = c.GetCurrentUiDom
  calls : ci.domCalls = c.domCalls + i + 1
  log : ci.touchLog =
    c.touchLog ++ (List.range i).map (gestureAt moves subject (framesFrom c))

theorem objFind_objSet (ms : List (String × Json)) (k k1 : String) (v : Json) :
    objFind (objSet ms k v) k1 = if k1 = k then some v else objFind ms k1 := by
  induction ms with
  | nil => simp [objSet, objFind]
  | cons kv rest ih =>
    obtain ⟨k0, v0⟩ := kv
    by_cases h1 : k = k0
    · subst h1
      by_cases h2 : k1 = k <;> simp [objSet, objFind, h2]
    · by_cases h3 : k.data < k0.data
      · by_cases h2 : k1 = k <;> simp [objSet, objFind, h1, h3, h2]
      · by_cases h2 : k1 = k
        · subst h2
          simp [objSet, objFind, h1, h3, ih]
        · simp [objSet, objFind, h1, h3, h2, ih]

/-! ## Lemmas on the handler loop -/

theorem callLoop_cons_accept {GetErrorName : ErrCode → String} {code : ApiRequstHandler → HandlerFn}
    {api : String} {input : Json} {h : ApiRequstHandler} {rest : List ApiRequstHandler}
    {m : Mem} (hr : (code h api input m).2 = .ret true) :
    callLoop GetErrorName code api input (h :: rest) m =
      { mem := (code h api input m).1, invoked := [⟨h, .ret true⟩] } := by
  rcases hc : code h api input m with ⟨m1, r⟩
  rw [hc] at hr
  simp only at hr
  subst hr
  simp [callLoop, hc]

theorem callLoop_cons_decline {GetErrorName : ErrCode → String}
    {code : ApiRequstHandler → HandlerFn}
    {api : String} {input : Json} {h : ApiRequstHandler} {rest : List ApiRequstHandler}
    {m : Mem} (hr : (code h api input m).2 = .ret false) :
    callLoop GetErrorName code api input (h :: rest) m =
      { mem := (callLoop GetErrorName code api input rest (code h api input m).1).mem,
        invoked := ⟨h, .ret false⟩ ::
          (callLoop GetErrorName code api input rest (code h api input m).1).invoked } := by
  rcases hc : code h api input m with ⟨m1, r⟩
  rw [hc] at hr
  simp only at hr
  subst hr
  simp [callLoop, hc]

theorem callLoop_cons_raise {GetErrorName : ErrCode → String} {code : ApiRequstHandler → HandlerFn}
    {api : String} {input : Json} {h : ApiRequstHandler} {rest : List ApiRequstHandler}
    {m : Mem} {w : String} (hr : (code h api input m).2 = .raise w) :
    callLoop GetErrorName code api input (h :: rest) m =
      { mem := { (code h api input m).1 with
                 err := ApiCallErr.new GetErrorName .INTERNAL_ERROR
                   ("Exception raised when handling '" ++ api ++ "':" ++ w) },
        invoked := [⟨h, .raise w⟩] } := by
  rcases hc : code h api input m with ⟨m1, r⟩
  rw [hc] at hr
  simp only at hr
  subst hr
  simp [callLoop, hc]

/-- Case analysis on the way an invocation ends. -/
theorem handlerRet_cases (r : HandlerRet) :
    r = .ret true ∨ r = .ret false ∨ ∃ w, r = .raise w := by
  cases r with
  | ret b => cases b <;> simp
  | raise w => exact Or.inr (Or.inr ⟨w, rfl⟩)

/-- While the handlers decline, the loop walks on: the declining handlers are in the trace
and the loop continues from the memory they left. -/
theorem callLoop_append_decline (GetErrorName : ErrCode → String)
    (code : ApiRequstHandler → HandlerFn) (api : String) (input : Json)
    (pre rest : List ApiRequstHandler) (m : Mem)
    (hd : allDecline code api input pre m = true) :
    callLoop GetErrorName code api input (pre ++ rest) m =
      { mem := (callLoop GetErrorName code api input rest (memAfter code api input pre m)).mem,
        invoked := pre.map (fun h => ⟨h, .ret false⟩) ++
          (callLoop GetErrorName code api input rest (memAfter code api input pre m)).invoked } := by
  induction pre generalizing m with
  | nil => simp [memAfter]
  | cons h t ih =>
    simp only [allDecline, Bool.and_eq_true, decide_eq_true_eq] at hd
    simp only [List.cons_append, callLoop_cons_decline hd.1, ih _ hd.2, memAfter,
      List.map_cons]

/-- The trace of the loop names a prefix of the handler list; all but its last entry
declined; when the loop stopped early its last entry did not decline; and the caller, `out`
and the global are those left by the invoked handlers. -/
theorem callLoop_trace (GetErrorName : ErrCode → String)
    (code : ApiRequstHandler → HandlerFn) (api : String) (input : Json)
    (hs : List ApiRequstHandler) (m : Mem) :
    ∃ k, k ≤ hs.length ∧
      (callLoop GetErrorName code api input hs m).invoked.length = k ∧
      (callLoop GetErrorName code api input hs m).invoked.map (fun e => e.handler) = hs.take k ∧
      (∀ e ∈ (callLoop GetErrorName code api input hs m).invoked.dropLast, e.ret = .ret false) ∧
      (k < hs.length → ∃ e, (callLoop GetErrorName code api input hs m).invoked.getLast? = some e ∧
        e.ret ≠ .ret false) ∧
      (k = hs.length → (∀ e ∈ (callLoop GetErrorName code api input hs m).invoked,
        e.ret = .ret false) → allDecline code api input hs m = true) ∧
      (callLoop GetErrorName code api input hs m).mem.caller =
        (memAfter code api input (hs.take k) m).caller ∧
      (callLoop GetErrorName code api input hs m).mem.out =
        (memAfter code api input (hs.take k) m).out ∧
      (callLoop GetErrorName code api input hs m).mem.untracked =
        (memAfter code api input (hs.take k) m).untracked := by
  induction hs generalizing m with
  | nil => exact ⟨0, by simp [callLoop, memAfter, allDecline]⟩
  | cons h t ih =>
    rcases handlerRet_cases (code h api input m).2 with hr | hr | ⟨w, hr⟩
    · refine ⟨1, ?_⟩
      rw [callLoop_cons_accept hr]
      simp [memAfter]
    · obtain ⟨k, hk, hlen, hpre, hdl, hlast, hall, hc, ho, hu⟩ := ih (code h api input m).1
      refine ⟨k + 1, ?_⟩
      rw [callLoop_cons_decline hr]
      refine ⟨by simpa using hk, by simp [hlen], by simp [hpre], ?_, ?_, ?_, ?_⟩
      · intro e he
        cases hinv : (callLoop GetErrorName code api input t (code h api input m).1).invoked with
        | nil => simp [hinv] at he
        | cons e1 es =>
          rw [hinv, List.dropLast_cons₂] at he
          rcases List.mem_cons.1 he with rfl | he1
          · rfl
          · exact hdl e (by rw [hinv]; exact he1)
      · intro hlt
        obtain ⟨e, he, hne⟩ := hlast (by simpa using hlt)
        refine ⟨e, ?_, hne⟩
        cases hinv : (callLoop GetErrorName code api input t (code h api input m).1).invoked with
        | nil => simp [hinv] at he
        | cons e1 es =>
          rw [hinv] at he
          simpa [List.getLast?_cons_cons] using he
      · intro hkl hal
        simp only [allDecline, Bool.and_eq_true, decide_eq_true_eq]
        exact ⟨hr, hall (by simpa using hkl) (fun e he => hal e (List.mem_cons_of_mem _ he))⟩
      · simpa [memAfter] using ⟨hc, ho, hu⟩
    · refine ⟨1, ?_⟩
      rw [callLoop_cons_raise hr]
      simp [memAfter]

/-! ## Properties of `ApiCallErr` and of `ExternApiServer::Call` -/

/-- C10: for every error code `ec` and message `msg`, the two-argument constructor yields
`code_ = ec` and `message_ = "[" + GetErrorName(ec) + "]:" + msg`, and the one-argument
constructor yields `code_ = ec` and `message_ = "[" + GetErrorName(ec) + "]:"`; in both cases
the message starts with the bracketed error name, whatever the code (`NO_ERROR` included). -/
theorem ApiCallErr_construction (GetErrorName : ErrCode → String) (ec : ErrCode) (msg : String) :
    (ApiCallErr.new GetErrorName ec msg).code_ = ec ∧
    (ApiCallErr.new GetErrorName ec msg).message_ = "[" ++ GetErrorName ec ++ "]:" ++ msg ∧
    (ApiCallErr.ofCode GetErrorName ec).code_ = ec ∧
    (ApiCallErr.ofCode GetErrorName ec).message_ = "[" ++ GetErrorName ec ++ "]:" ∧
    (∃ rest, (ApiCallErr.new GetErrorName ec msg).message_ =
      ("[" ++ GetErrorName ec ++ "]:") ++ rest) ∧
    (∃ rest, (ApiCallErr.ofCode GetErrorName ec).message_ =
      ("[" ++ GetErrorName ec ++ "]:") ++ rest) := by
  refine ⟨rfl, rfl, rfl, ?_, ⟨msg, rfl⟩, ⟨"", rfl⟩⟩
  simp [ApiCallErr.ofCode, ApiCallErr.new]

/-- C1: for every handler list and request in which no invoked handler raises, the
handlers invoked by `Call` are, in order, the first `k` registrations of the list (the list
being in the order of the `AddHandler` calls), each registration at most once (and each
handler at most once when the list has no duplicate); every invoked handler but the last
returned false; when some registration was not invoked the last invoked handler returned
true; and the call stops at the first handler that returns true, invoking none after it. -/
theorem Call_invokes_in_registration_order (GetErrorName : ErrCode → String)
    (code : ApiRequstHandler → HandlerFn) (s : ExternApiServer) (apiId : String) (input : Json)
    (m : Mem)
    (hno : ∀ e ∈ (s.Call GetErrorName code apiId input m).invoked, e.ret.raised = false) :
    (∀ h, h ≠ nullptr → (s.AddHandler h).handlers_ = s.handlers_ ++ [h]) ∧
    (∃ k, k ≤ s.handlers_.length ∧
      (s.Call GetErrorName code apiId input m).invoked.map (fun e => e.handler) =
        s.handlers_.take k ∧
      (k < s.handlers_.length →
        ∃ e, (s.Call GetErrorName code apiId input m).invoked.getLast? = some e ∧
          e.ret = .ret true)) ∧
    (∀ e ∈ (s.Call GetErrorName code apiId input m).invoked.dropLast, e.ret = .ret false) ∧
    (s.handlers_.Nodup →
      ((s.Call GetErrorName code apiId input m).invoked.map (fun e => e.handler)).Nodup) ∧
    (∀ pre h post, s.handlers_ = pre ++ h :: post →
      allDecline code apiId input pre m = true →
      (code h apiId input (memAfter code apiId input pre m)).2 = .ret true →
      (s.Call GetErrorName code apiId input m).invoked =
        pre.map (fun h0 => ⟨h0, .ret false⟩) ++ [⟨h, .ret true⟩]) := by
  obtain ⟨k, hk, _, hpre, hdl, hlast, _⟩ := callLoop_trace GetErrorName code apiId input s.handlers_ m
  refine ⟨?_, ⟨k, hk, hpre, ?_⟩, hdl, ?_, ?_⟩
  · intro h hh
    simp [ExternApiServer.AddHandler, hh]
  · intro hlt
    obtain ⟨e, he, hne⟩ := hlast hlt
    refine ⟨e, he, ?_⟩
    have hmem : e ∈ (s.Call GetErrorName code apiId input m).invoked :=
      List.mem_of_getLast?_eq_some he
    have hnr := hno e hmem
    rcases handlerRet_cases e.ret with h1 | h1 | ⟨w, h1⟩
    · exact h1
    · exact absurd h1 hne
    · rw [h1] at hnr
      simp [HandlerRet.raised] at hnr
  · intro hnd
    unfold ExternApiServer.Call
    rw [hpre]
    exact hnd.sublist (List.take_sublist k s.handlers_)
  · intro pre h post hsplit hd hacc
    unfold ExternApiServer.Call
    rw [hsplit, callLoop_append_decline GetErrorName code apiId input pre (h :: post) m hd,
      callLoop_cons_accept hacc]

/-- C1, instance: handlers 1, 2, 3 in this order; 1 declines, 2 accepts, 3 is not reached. -/
theorem Call_invokes_in_registration_order_witness :
    (∀ e ∈ (ExternApiServer.Call specErrorName sampleCode { handlers_ := [1, 2, 3] } "click"
        (.arr []) sampleMem).invoked, e.ret.raised = false) ∧
    (ExternApiServer.Call specErrorName sampleCode { handlers_ := [1, 2, 3] } "click"
        (.arr []) sampleMem).invoked = [⟨1, .ret false⟩] ++ [⟨2, .ret true⟩] :=
  ⟨by decide,
   (Call_invokes_in_registration_order specErrorName sampleCode { handlers_ := [1, 2, 3] } "click"
      (.arr []) sampleMem (by decide)).2.2.2.2 [1] 2 [3] rfl (by decide) (by decide)⟩

/-- C3: for every api id, if every registered handler returns false without raising (all
of them are then invoked; an empty list included), `Call` leaves `err.code_ = INTERNAL_ERROR`
and `err.message_ = "[" + GetErrorName(INTERNAL_ERROR) + "]:No handler found for extern-api: "
+ apiId`. -/
theorem Call_no_handler_found (GetErrorName : ErrCode → String)
    (code : ApiRequstHandler → HandlerFn) (s : ExternApiServer) (apiId : String) (input : Json)
    (m : Mem)
    (hdecl : allDecline code apiId input s.handlers_ m = true) :
    (s.Call GetErrorName code apiId input m).mem.err.code_ = .INTERNAL_ERROR ∧
    (s.Call GetErrorName code apiId input m).mem.err.message_ =
      "[" ++ GetErrorName .INTERNAL_ERROR ++ "]:No handler found for extern-api: " ++ apiId ∧
    (s.Call GetErrorName code apiId input m).invoked =
      s.handlers_.map (fun h => ⟨h, .ret false⟩) := by
  have h := callLoop_append_decline GetErrorName code apiId input s.handlers_ [] m hdecl
  rw [List.append_nil] at h
  unfold ExternApiServer.Call
  rw [h]
  refine ⟨rfl, ?_, by simp [callLoop]⟩
  simp only [callLoop, ApiCallErr.new, String.append_assoc]
  rfl

/-- C3, instance: handlers 1 and 4 both decline. -/
theorem Call_no_handler_found_witness :
    allDecline sampleCode "click" (.arr []) [1, 4] sampleMem = true ∧
    (ExternApiServer.Call specErrorName sampleCode { handlers_ := [1, 4] } "click"
        (.arr []) sampleMem).mem.err.code_ = .INTERNAL_ERROR :=
  ⟨by decide,
   (Call_no_handler_found specErrorName sampleCode { handlers_ := [1, 4] } "click"
      (.arr []) sampleMem (by decide)).1⟩

/-- C4: for every handler list `pre ++ h :: post` in which the handlers of `pre` return
false and `h` then raises an exception with text `w`, `Call` returns normally with `err` set
to `INTERNAL_ERROR` and the message `"[" + GetErrorName(INTERNAL_ERROR) + "]:Exception raised
when handling '" + apiId + "':" + w`; the trace ends with `h`, so no handler of `post` is
invoked, whatever it would have returned. -/
theorem Call_handler_raises (GetErrorName : ErrCode → String)
    (code : ApiRequstHandler → HandlerFn) (apiId : String) (input : Json) (m : Mem)
    (pre post : List ApiRequstHandler) (h : ApiRequstHandler) (w : String)
    (hdecl : allDecline code apiId input pre m = true)
    (hraise : (code h apiId input (memAfter code apiId input pre m)).2 = .raise w) :
    (ExternApiServer.Call GetErrorName code { handlers_ := pre ++ h :: post } apiId input
      m).mem.err.code_ = .INTERNAL_ERROR ∧
    (ExternApiServer.Call GetErrorName code { handlers_ := pre ++ h :: post } apiId input
      m).mem.err.message_ =
      "[" ++ GetErrorName .INTERNAL_ERROR ++ "]:Exception raised when handling '" ++ apiId ++
        "':" ++ w ∧
    (ExternApiServer.Call GetErrorName code { handlers_ := pre ++ h :: post } apiId input
      m).invoked = pre.map (fun h0 => ⟨h0, .ret false⟩) ++ [⟨h, .raise w⟩] := by
  unfold ExternApiServer.Call
  simp only
  rw [callLoop_append_decline GetErrorName code apiId input pre (h :: post) m hdecl,
    callLoop_cons_raise hraise]
  refine ⟨rfl, ?_, rfl⟩
  simp only [ApiCallErr.new, String.append_assoc]
  rfl

/-- C4, instance: handler 1 declines, handler 3 raises, handler 2 (which accepts every
request) is registered after it. -/
theorem Call_handler_raises_witness :
    allDecline sampleCode "click" (.arr []) [1] sampleMem = true ∧
    (sampleCode 3 "click" (.arr []) (memAfter sampleCode "click" (.arr []) [1] sampleMem)).2 =
      .raise "type must be number" ∧
    (ExternApiServer.Call specErrorName sampleCode { handlers_ := [1] ++ 3 :: [2] } "click"
      (.arr []) sampleMem).invoked = [⟨1, .ret false⟩, ⟨3, .raise "type must be number"⟩] :=
  ⟨by decide, by decide,
   (Call_handler_raises specErrorName sampleCode "click" (.arr []) sampleMem [1] [2] 3
      "type must be number" (by decide) (by decide)).2.2⟩

/-! ## Lemmas on the transaction envelope -/

theorem deliverException_null (GetErrorName : ErrCode → String) (error : ApiCallErr) :
    deliverException GetErrorName .null error =
      .ok (if error.code_ = .NO_ERROR then .null
           else .obj [(KEY_EXCEPTION, exceptionInfoOf GetErrorName error)]) := by
  by_cases h : error.code_ = .NO_ERROR
  · simp [deliverException, h]
  · simp only [deliverException, h, ne_eq, not_false_eq_true, if_true, if_false]
    rfl

theorem deliverException_obj (GetErrorName : ErrCode → String) (ms : List (String × Json))
    (error : ApiCallErr) :
    deliverException GetErrorName (.obj ms) error =
      .ok (if error.code_ = .NO_ERROR then .obj ms
           else .obj (objSet ms KEY_EXCEPTION (exceptionInfoOf GetErrorName error))) := by
  by_cases h : error.code_ = .NO_ERROR
  · simp [deliverException, h]
  · simp only [deliverException, h, ne_eq, not_false_eq_true, if_true, if_false]
    rfl

/-- The state after the `try` statement when the caller text does not parse. -/
theorem afterTry_caller_fails {GetErrorName : ErrCode → String}
    {parse : String → Except String Json} {code : ApiRequstHandler → HandlerFn}
    {server : ExternApiServer} {funcStr callerStr paramsStr w : String}
    (hc : parse callerStr = .error w) :
    afterTry GetErrorName parse code server funcStr callerStr paramsStr =
      transactCatch GetErrorName .null (ApiCallErr.ofCode GetErrorName .NO_ERROR) [] w := by
  simp [afterTry, transactTry, hc]

/-- The state after the `try` statement when the caller text parses and the parameter text
does not. -/
theorem afterTry_params_fail {GetErrorName : ErrCode → String}
    {parse : String → Except String Json} {code : ApiRequstHandler → HandlerFn}
    {server : ExternApiServer} {funcStr callerStr paramsStr w : String} {c : Json}
    (hc : parse callerStr = .ok c) (hp : parse paramsStr = .error w) :
    afterTry GetErrorName parse code server funcStr callerStr paramsStr =
      transactCatch GetErrorName .null (ApiCallErr.ofCode GetErrorName .NO_ERROR) [] w := by
  simp [afterTry, transactTry, hc, hp]

/-- The state after the `try` statement when both texts parse. -/
theorem afterTry_parsed {GetErrorName : ErrCode → String}
    {parse : String → Except String Json} {code : ApiRequstHandler → HandlerFn}
    {server : ExternApiServer} {funcStr callerStr paramsStr : String} {c p : Json}
    (hc : parse callerStr = .ok c) (hp : parse paramsStr = .ok p) :
    afterTry GetErrorName parse code server funcStr callerStr paramsStr =
      { returnData := .obj
          [(KEY_RESULT_VALUES,
              (server.Call GetErrorName code funcStr p (entryMem GetErrorName c)).mem.out),
           (KEY_UPDATED_CALLER,
              (server.Call GetErrorName code funcStr p (entryMem GetErrorName c)).mem.caller)],
        error := (server.Call GetErrorName code funcStr p (entryMem GetErrorName c)).mem.err,
        untracked :=
          (server.Call GetErrorName code funcStr p (entryMem GetErrorName c)).mem.untracked,
        invoked := (server.Call GetErrorName code funcStr p (entryMem GetErrorName c)).invoked } := by
  simp only [afterTry, transactTry, hc, hp, Json.set, entryMem]
  rfl

/-- Every text either fails to parse or parses. -/
theorem parse_cases (parse : String → Except String Json) (callerStr paramsStr : String) :
    (∃ w, parse callerStr = .error w) ∨
    (∃ c w, parse callerStr = .ok c ∧ parse paramsStr = .error w) ∨
    (∃ c p, parse callerStr = .ok c ∧ parse paramsStr = .ok p) := by
  cases hc : parse callerStr with
  | error w => exact Or.inl ⟨w, rfl⟩
  | ok c =>
    cases hp : parse paramsStr with
    | error w => exact Or.inr (Or.inl ⟨c, w, rfl, rfl⟩)
    | ok p => exact Or.inr (Or.inr ⟨c, p, rfl, rfl⟩)

/-- The object `returnData` after the `try` statement is null or an object. -/
theorem afterTry_returnData (GetErrorName : ErrCode → String)
    (parse : String → Except String Json) (code : ApiRequstHandler → HandlerFn)
    (server : ExternApiServer) (funcStr callerStr paramsStr : String) :
    (afterTry GetErrorName parse code server funcStr callerStr paramsStr).returnData = .null ∨
    ∃ ms, (afterTry GetErrorName parse code server funcStr callerStr paramsStr).returnData =
      .obj ms := by
  rcases parse_cases parse callerStr paramsStr with ⟨w, hc⟩ | ⟨c, w, hc, hp⟩ | ⟨c, p, hc, hp⟩
  · rw [afterTry_caller_fails hc]; exact Or.inl rfl
  · rw [afterTry_params_fail hc hp]; exact Or.inl rfl
  · rw [afterTry_parsed hc hp]; exact Or.inr ⟨_, rfl⟩

/-- A run of `ApiTransact` in terms of the state after its `try` statement. -/
theorem ApiTransact_eq (GetErrorName : ErrCode → String) (parse : String → Except String Json)
    (dump : Json → String) (code : ApiRequstHandler → HandlerFn) (server : ExternApiServer)
    (entry : ApiCallErr) (funcStr callerStr paramsStr : String) :
    ApiTransact GetErrorName parse dump code server entry funcStr callerStr paramsStr =
      match deliverException GetErrorName
          (afterTry GetErrorName parse code server funcStr callerStr paramsStr).returnData
          (applyUntracked
            (afterTry GetErrorName parse code server funcStr callerStr paramsStr).error
            (afterTry GetErrorName parse code server funcStr callerStr paramsStr).untracked) with
      | .error what => .error what
      | .ok returnData =>
        .ok { ret := dump returnData, returnData := returnData,
              error := applyUntracked
                (afterTry GetErrorName parse code server funcStr callerStr paramsStr).error
                (afterTry GetErrorName parse code server funcStr callerStr paramsStr).untracked,
              untracked :=
                (afterTry GetErrorName parse code server funcStr callerStr paramsStr).untracked,
              invoked :=
                (afterTry GetErrorName parse code server funcStr callerStr paramsStr).invoked } :=
  rfl

/-- The object `returnData` has no exception entry when the `try` statement is left. -/
theorem afterTry_find_exception (GetErrorName : ErrCode → String)
    (parse : String → Except String Json) (code : ApiRequstHandler → HandlerFn)
    (server : ExternApiServer) (funcStr callerStr paramsStr : String) :
    (afterTry GetErrorName parse code server funcStr callerStr paramsStr).returnData.find
      KEY_EXCEPTION = none := by
  rcases parse_cases parse callerStr paramsStr with ⟨w, hc⟩ | ⟨c, w, hc, hp⟩ | ⟨c, p, hc, hp⟩
  · rw [afterTry_caller_fails hc]; rfl
  · rw [afterTry_params_fail hc hp]; rfl
  · rw [afterTry_parsed hc hp]
    have h1 : KEY_EXCEPTION ≠ KEY_RESULT_VALUES := by decide
    have h2 : KEY_EXCEPTION ≠ KEY_UPDATED_CALLER := by decide
    simp [Json.find, objFind, h1, h2]

/-- Every run of `ApiTransact` returns: no exception leaves the function. The returned
object is the one left by the `try` statement, with the exception entry added when the merged
error is not `NO_ERROR`. -/
theorem ApiTransact_returns (GetErrorName : ErrCode → String)
    (parse : String → Except String Json)
    (dump : Json → String) (code : ApiRequstHandler → HandlerFn) (server : ExternApiServer)
    (entry : ApiCallErr) (funcStr callerStr paramsStr : String) :
    ∃ rd : Json,
      ApiTransact GetErrorName parse dump code server entry funcStr callerStr paramsStr =
        .ok { ret := dump rd, returnData := rd,
              error := applyUntracked
                (afterTry GetErrorName parse code server funcStr callerStr paramsStr).error
                (afterTry GetErrorName parse code server funcStr callerStr paramsStr).untracked,
              untracked :=
                (afterTry GetErrorName parse code server funcStr callerStr paramsStr).untracked,
              invoked :=
                (afterTry GetErrorName parse code server funcStr callerStr paramsStr).invoked } ∧
      rd.find KEY_EXCEPTION =
        (if (applyUntracked
              (afterTry GetErrorName parse code server funcStr callerStr paramsStr).error
              (afterTry GetErrorName parse code server funcStr callerStr paramsStr).untracked).code_
            = .NO_ERROR then none
         else some (exceptionInfoOf GetErrorName (applyUntracked
              (afterTry GetErrorName parse code server funcStr callerStr paramsStr).error
              (afterTry GetErrorName parse code server funcStr callerStr
                paramsStr).untracked))) ∧
      (∀ k, k ≠ KEY_EXCEPTION → rd.find k =
        (afterTry GetErrorName parse code server funcStr callerStr paramsStr).returnData.find
          k) := by
  have hexc := afterTry_find_exception GetErrorName parse code server funcStr callerStr paramsStr
  have hrd := afterTry_returnData GetErrorName parse code server funcStr callerStr paramsStr
  rw [ApiTransact_eq]
  generalize afterTry GetErrorName parse code server funcStr callerStr paramsStr = t at hexc hrd ⊢
  generalize applyUntracked t.error t.untracked = fin
  rcases t with ⟨rd0, e0, u0, i0⟩
  simp only at hexc hrd ⊢
  rcases hrd with rfl | ⟨ms, rfl⟩
  · rw [deliverException_null]
    by_cases hcode : fin.code_ = .NO_ERROR
    · exact ⟨.null, by simp [hcode], by simp [hcode, Json.find], fun _ _ => rfl⟩
    · refine ⟨.obj [(KEY_EXCEPTION, exceptionInfoOf GetErrorName fin)], by simp [hcode],
        by simp [hcode, Json.find, objFind], ?_⟩
      intro k hk
      simp [Json.find, objFind, hk]
  · rw [deliverException_obj]
    by_cases hcode : fin.code_ = .NO_ERROR
    · exact ⟨.obj ms, by simp [hcode], by simpa [hcode] using hexc, fun _ _ => rfl⟩
    · refine ⟨.obj (objSet ms KEY_EXCEPTION (exceptionInfoOf GetErrorName fin)), by simp [hcode],
        by simp [hcode, Json.find, objFind_objSet], ?_⟩
      intro k hk
      simp [Json.find, objFind_objSet, hk]

/-! ## Properties of `ApiTransact` -/

/-- C2: in every run of `ApiTransact`, with the local error and the untracked-error slot
as the `try` statement leaves them (the local error coming from dispatch or from parameter
parsing), the final error has the larger of the two numeric codes; it is the untracked error
exactly when the code of that one is strictly greater, and the local error (code and
message) otherwise, in particular when the codes are equal; and it is this final error that
the exception entry of the envelope reports. -/
theorem ApiTransact_error_merge (GetErrorName : ErrCode → String)
    (parse : String → Except String Json)
    (dump : Json → String) (code : ApiRequstHandler → HandlerFn) (server : ExternApiServer)
    (entry : ApiCallErr) (funcStr callerStr paramsStr : String) :
    ∃ res : TransactResult,
      ApiTransact GetErrorName parse dump code server entry funcStr callerStr paramsStr =
        .ok res ∧
      res.error.code_.toNat =
        max (afterTry GetErrorName parse code server funcStr callerStr paramsStr).error.code_.toNat
          (afterTry GetErrorName parse code server funcStr callerStr
            paramsStr).untracked.code_.toNat ∧
      res.error =
        (if (afterTry GetErrorName parse code server funcStr callerStr
              paramsStr).error.code_.toNat <
            (afterTry GetErrorName parse code server funcStr callerStr
              paramsStr).untracked.code_.toNat
         then (afterTry GetErrorName parse code server funcStr callerStr paramsStr).untracked
         else (afterTry GetErrorName parse code server funcStr callerStr paramsStr).error) ∧
      res.returnData.find KEY_EXCEPTION =
        (if res.error.code_ = .NO_ERROR then none
         else some (exceptionInfoOf GetErrorName res.error)) ∧
      (exceptionInfoOf GetErrorName res.error).find KEY_CODE =
        some (.str (GetErrorName res.error.code_)) ∧
      (exceptionInfoOf GetErrorName res.error).find KEY_MESSAGE =
        some (.str res.error.message_) := by
  obtain ⟨rd, hrun, hexc, _⟩ := ApiTransact_returns GetErrorName parse dump code server entry
    funcStr callerStr paramsStr
  refine ⟨_, hrun, ?_, rfl, hexc, rfl, rfl⟩
  simp only [applyUntracked]
  split
  · rename_i hlt
    exact (max_eq_right (Nat.le_of_lt hlt)).symm
  · rename_i hge
    exact (max_eq_left (Nat.le_of_not_lt hge)).symm

/-- C5: in every run of `ApiTransact` the returned string is the dump of an object that has
an `exception` entry if and only if the final (merged) error code is not `NO_ERROR`; when
present, the entry's code field is `GetErrorName` of the final code and its message field
is the final error's message. -/
theorem ApiTransact_exception_entry (GetErrorName : ErrCode → String)
    (parse : String → Except String Json)
    (dump : Json → String) (code : ApiRequstHandler → HandlerFn) (server : ExternApiServer)
    (entry : ApiCallErr) (funcStr callerStr paramsStr : String) :
    ∃ res : TransactResult,
      ApiTransact GetErrorName parse dump code server entry funcStr callerStr paramsStr =
        .ok res ∧
      res.ret = dump res.returnData ∧
      res.error = applyUntracked
        (afterTry GetErrorName parse code server funcStr callerStr paramsStr).error
        (afterTry GetErrorName parse code server funcStr callerStr paramsStr).untracked ∧
      (res.returnData.contains KEY_EXCEPTION = true ↔ res.error.code_ ≠ .NO_ERROR) ∧
      (∀ exc, res.returnData.find KEY_EXCEPTION = some exc →
        exc.find KEY_CODE = some (.str (GetErrorName res.error.code_)) ∧
        exc.find KEY_MESSAGE = some (.str res.error.message_)) := by
  obtain ⟨rd, hrun, hexc, _⟩ := ApiTransact_returns GetErrorName parse dump code server entry
    funcStr callerStr paramsStr
  refine ⟨_, hrun, rfl, rfl, ?_, ?_⟩
  · simp only [Json.contains, hexc]
    split <;> simp_all
  · intro exc hfind
    simp only [hexc] at hfind
    split at hfind
    · exact absurd hfind (by simp)
    · cases hfind
      exact ⟨rfl, rfl⟩

/-- C6: for every function id, if the caller text or the parameter text is not parseable
JSON, then `ApiTransact` invokes no handler and returns an object whose exception entry has
the name of `INTERNAL_ERROR` as code and a message that starts with
`"[" + GetErrorName(INTERNAL_ERROR) + "]:Convert transaction parameters failed: "` (it goes on
with the text of the parse error). -/
theorem ApiTransact_parse_failure (GetErrorName : ErrCode → String)
    (parse : String → Except String Json)
    (dump : Json → String) (code : ApiRequstHandler → HandlerFn) (server : ExternApiServer)
    (entry : ApiCallErr) (funcStr callerStr paramsStr : String)
    (hfail : (∃ w, parse callerStr = .error w) ∨ (∃ w, parse paramsStr = .error w)) :
    ∃ (res : TransactResult) (exc : Json) (w : String),
      ApiTransact GetErrorName parse dump code server entry funcStr callerStr paramsStr =
        .ok res ∧
      res.invoked = [] ∧
      res.error.code_ = .INTERNAL_ERROR ∧
      res.returnData.find KEY_EXCEPTION = some exc ∧
      exc.find KEY_CODE = some (.str (GetErrorName .INTERNAL_ERROR)) ∧
      exc.find KEY_MESSAGE = some (.str
        ("[" ++ GetErrorName .INTERNAL_ERROR ++ "]:Convert transaction parameters failed: "
          ++ w)) := by
  obtain ⟨rd, hrun, hexc, _⟩ := ApiTransact_returns GetErrorName parse dump code server entry
    funcStr callerStr paramsStr
  have key : ∃ w, afterTry GetErrorName parse code server funcStr callerStr paramsStr =
      transactCatch GetErrorName .null (ApiCallErr.ofCode GetErrorName .NO_ERROR) [] w := by
    rcases parse_cases parse callerStr paramsStr with ⟨w, hc⟩ | ⟨c, w, hc, hp⟩ | ⟨c, p, hc, hp⟩
    · exact ⟨w, afterTry_caller_fails hc⟩
    · exact ⟨w, afterTry_params_fail hc hp⟩
    · rcases hfail with ⟨w, hw⟩ | ⟨w, hw⟩
      · rw [hc] at hw; cases hw
      · rw [hp] at hw; cases hw
  obtain ⟨w, hw⟩ := key
  rw [hw] at hrun hexc
  have hfin : applyUntracked
      (transactCatch GetErrorName .null (ApiCallErr.ofCode GetErrorName .NO_ERROR) [] w).error
      (transactCatch GetErrorName .null (ApiCallErr.ofCode GetErrorName .NO_ERROR) [] w).untracked
      = ApiCallErr.new GetErrorName .INTERNAL_ERROR
          ("Convert transaction parameters failed: " ++ w) := by
    simp [applyUntracked, transactCatch, ApiCallErr.new, ApiCallErr.ofCode, ErrCode.toNat]
  rw [hfin] at hrun hexc
  have hne : (ApiCallErr.new GetErrorName .INTERNAL_ERROR
      ("Convert transaction parameters failed: " ++ w)).code_ ≠ .NO_ERROR := by
    simp [ApiCallErr.new]
  rw [if_neg hne] at hexc
  refine ⟨_, exceptionInfoOf GetErrorName (ApiCallErr.new GetErrorName .INTERNAL_ERROR
    ("Convert transaction parameters failed: " ++ w)), w, hrun, rfl, rfl, hexc, rfl, ?_⟩
  have h1 : KEY_MESSAGE ≠ KEY_CODE := by decide
  simp only [exceptionInfoOf, Json.find, objFind, ApiCallErr.new, String.append_assoc, h1,
    if_false, if_true]
  rfl

/-- C6, instance: the caller text is empty, which is not JSON; handler 2, which accepts
every request, is registered and is not invoked. -/
theorem ApiTransact_parse_failure_witness :
    ((∃ w, sampleParse "" = .error w) ∨ (∃ w, sampleParse "[]" = .error w)) ∧
    ∃ (res : TransactResult) (exc : Json) (w : String),
      ApiTransact specErrorName sampleParse sampleDump sampleCode { handlers_ := [2] }
        (ApiCallErr.new specErrorName .USAGE_ERROR "stale") "click" "" "[]" = .ok res ∧
      res.invoked = [] ∧
      res.error.code_ = .INTERNAL_ERROR ∧
      res.returnData.find KEY_EXCEPTION = some exc ∧
      exc.find KEY_CODE = some (.str (specErrorName .INTERNAL_ERROR)) ∧
      exc.find KEY_MESSAGE = some (.str
        ("[" ++ specErrorName .INTERNAL_ERROR ++ "]:Convert transaction parameters failed: "
          ++ w)) :=
  ⟨Or.inl ⟨_, rfl⟩,
   ApiTransact_parse_failure specErrorName sampleParse sampleDump sampleCode { handlers_ := [2] }
     (ApiCallErr.new specErrorName .USAGE_ERROR "stale") "click" "" "[]" (Or.inl ⟨_, rfl⟩)⟩

/-- Handlers that leave the global as they found it leave it so when run in sequence. -/
theorem memAfter_untracked (code : ApiRequstHandler → HandlerFn) (api : String) (input : Json)
    (hs : List ApiRequstHandler) (m : Mem)
    (hq : ∀ h ∈ hs, ∀ m0, (code h api input m0).1.untracked = m0.untracked) :
    (memAfter code api input hs m).untracked = m.untracked := by
  induction hs generalizing m with
  | nil => rfl
  | cons h t ih =>
    simp only [memAfter]
    rw [ih _ (fun h0 hh0 => hq h0 (List.mem_cons_of_mem _ hh0)), hq h (List.mem_cons_self _ _)]

/-- The global after the `try` statement, when the registered handlers do not write it. -/
theorem afterTry_untracked_quiet (GetErrorName : ErrCode → String)
    (parse : String → Except String Json) (code : ApiRequstHandler → HandlerFn)
    (server : ExternApiServer) (funcStr callerStr paramsStr : String)
    (hq : ∀ h ∈ server.handlers_, ∀ inp m0,
      (code h funcStr inp m0).1.untracked = m0.untracked) :
    (afterTry GetErrorName parse code server funcStr callerStr paramsStr).untracked =
      ApiCallErr.ofCode GetErrorName .NO_ERROR := by
  rcases parse_cases parse callerStr paramsStr with ⟨w, hc⟩ | ⟨c, w, hc, hp⟩ | ⟨c, p, hc, hp⟩
  · rw [afterTry_caller_fails hc]; rfl
  · rw [afterTry_params_fail hc hp]; rfl
  · rw [afterTry_parsed hc hp]
    obtain ⟨k, _, _, _, _, _, _, _, _, hu⟩ :=
      callLoop_trace GetErrorName code funcStr p server.handlers_ (entryMem GetErrorName c)
    simp only [ExternApiServer.Call]
    rw [hu, memAfter_untracked code funcStr p _ _
      (fun h hh m0 => hq h (List.mem_of_mem_take hh) p m0)]
    rfl

/-- C7: `ApiTransact` first resets the untracked-error slot, so a run does not depend on
the value the slot held on entry: two runs with the same arguments, handler list and handler
behaviours that differ only in that value are equal, and so are the returned strings. In
particular, when the registered handlers do not write the slot, the slot is `NO_ERROR` after
the run and the error reported is the local one, whatever error an earlier transaction
left in the slot. -/
theorem ApiTransact_ignores_entry_slot (GetErrorName : ErrCode → String)
    (parse : String → Except String Json)
    (dump : Json → String) (code : ApiRequstHandler → HandlerFn) (server : ExternApiServer)
    (entry entry2 : ApiCallErr) (funcStr callerStr paramsStr : String) :
    ApiTransact GetErrorName parse dump code server entry funcStr callerStr paramsStr =
      ApiTransact GetErrorName parse dump code server entry2 funcStr callerStr paramsStr ∧
    (ApiTransact GetErrorName parse dump code server entry funcStr callerStr paramsStr).map
        (fun res => res.ret) =
      (ApiTransact GetErrorName parse dump code server entry2 funcStr callerStr paramsStr).map
        (fun res => res.ret) ∧
    ((∀ h ∈ server.handlers_, ∀ inp m0, (code h funcStr inp m0).1.untracked = m0.untracked) →
      ∃ res : TransactResult,
        ApiTransact GetErrorName parse dump code server entry funcStr callerStr paramsStr =
          .ok res ∧
        res.untracked = ApiCallErr.ofCode GetErrorName .NO_ERROR ∧
        res.error = (afterTry GetErrorName parse code server funcStr callerStr paramsStr).error ∧
        res.returnData.find KEY_EXCEPTION =
          (if (afterTry GetErrorName parse code server funcStr callerStr
                paramsStr).error.code_ = .NO_ERROR then none
           else some (exceptionInfoOf GetErrorName
             (afterTry GetErrorName parse code server funcStr callerStr paramsStr).error))) := by
  refine ⟨rfl, rfl, ?_⟩
  intro hq
  obtain ⟨rd, hrun, hexc, _⟩ := ApiTransact_returns GetErrorName parse dump code server entry
    funcStr callerStr paramsStr
  have hu := afterTry_untracked_quiet GetErrorName parse code server funcStr callerStr
    paramsStr hq
  have hkeep : applyUntracked
      (afterTry GetErrorName parse code server funcStr callerStr paramsStr).error
      (afterTry GetErrorName parse code server funcStr callerStr paramsStr).untracked =
      (afterTry GetErrorName parse code server funcStr callerStr paramsStr).error := by
    rw [hu]
    simp [applyUntracked, ApiCallErr.ofCode, ApiCallErr.new, ErrCode.toNat]
  rw [hkeep] at hrun hexc
  exact ⟨_, hrun, hu, rfl, hexc⟩

/-- C7, instance: handlers 1 and 2 do not write the slot; the slot holds a `USAGE_ERROR`
left by an earlier transaction on entry, and none is reported. -/
theorem ApiTransact_ignores_entry_slot_witness :
    (∀ h ∈ ({ handlers_ := [1, 2] } : ExternApiServer).handlers_, ∀ inp m0,
      (sampleCode h "click" inp m0).1.untracked = m0.untracked) ∧
    ∃ res : TransactResult,
      ApiTransact specErrorName sampleParse sampleDump sampleCode { handlers_ := [1, 2] }
          (ApiCallErr.new specErrorName .USAGE_ERROR "stale") "click" "null" "[]" = .ok res ∧
        res.untracked = ApiCallErr.ofCode specErrorName .NO_ERROR ∧
        res.error = (afterTry specErrorName sampleParse sampleCode { handlers_ := [1, 2] }
          "click" "null" "[]").error ∧
        res.returnData.find KEY_EXCEPTION =
          (if (afterTry specErrorName sampleParse sampleCode { handlers_ := [1, 2] }
                "click" "null" "[]").error.code_ = .NO_ERROR then none
           else some (exceptionInfoOf specErrorName
             (afterTry specErrorName sampleParse sampleCode { handlers_ := [1, 2] }
               "click" "null" "[]").error)) :=
  have hq : ∀ h ∈ ({ handlers_ := [1, 2] } : ExternApiServer).handlers_, ∀ inp m0,
      (sampleCode h "click" inp m0).1.untracked = m0.untracked := by
    intro h hh inp m0
    simp only [List.mem_cons, List.mem_singleton, List.not_mem_nil, or_false] at hh
    rcases hh with rfl | rfl <;> rfl
  ⟨hq,
   (ApiTransact_ignores_entry_slot specErrorName sampleParse sampleDump sampleCode
      { handlers_ := [1, 2] } (ApiCallErr.new specErrorName .USAGE_ERROR "stale")
      (ApiCallErr.ofCode specErrorName .NO_ERROR) "click" "null" "[]").2.2 hq⟩

/-- C8, as stated, fails: the caller text is empty, which is not JSON; the returned object
has neither `updatedCaller` nor `resultValues`, its only key is `exception`. -/
theorem ApiTransact_envelope_keys_counterexample :
    (ApiTransact specErrorName sampleParse sampleDump sampleCode { handlers_ := [2] }
      (ApiCallErr.ofCode specErrorName .NO_ERROR) "click" "" "[]").toOption.map
        (fun res => (res.returnData.contains KEY_UPDATED_CALLER,
                     res.returnData.contains KEY_RESULT_VALUES, res.ret)) =
      some (false, false, "exception") := by
  decide

/-- C8, amended: for every function id and every caller and parameter text that both parse,
the object returned by `ApiTransact` has the key `updatedCaller` and the key `resultValues`,
and the only other key it can have is `exception`. -/
theorem ApiTransact_envelope_keys (GetErrorName : ErrCode → String)
    (parse : String → Except String Json)
    (dump : Json → String) (code : ApiRequstHandler → HandlerFn) (server : ExternApiServer)
    (entry : ApiCallErr) (funcStr callerStr paramsStr : String) (c p : Json)
    (hc : parse callerStr = .ok c) (hp : parse paramsStr = .ok p) :
    ∃ res : TransactResult,
      ApiTransact GetErrorName parse dump code server entry funcStr callerStr paramsStr =
        .ok res ∧
      res.returnData.contains KEY_UPDATED_CALLER = true ∧
      res.returnData.contains KEY_RESULT_VALUES = true ∧
      (∀ k, res.returnData.contains k = true →
        k = KEY_UPDATED_CALLER ∨ k = KEY_RESULT_VALUES ∨ k = KEY_EXCEPTION) := by
  obtain ⟨rd, hrun, _, hrest⟩ := ApiTransact_returns GetErrorName parse dump code server entry
    funcStr callerStr paramsStr
  rw [afterTry_parsed hc hp] at hrest
  simp only at hrest
  have h1 : KEY_UPDATED_CALLER ≠ KEY_EXCEPTION := by decide
  have h2 : KEY_RESULT_VALUES ≠ KEY_EXCEPTION := by decide
  have h3 : KEY_UPDATED_CALLER ≠ KEY_RESULT_VALUES := by decide
  refine ⟨_, hrun, ?_, ?_, ?_⟩
  · show (rd.find KEY_UPDATED_CALLER).isSome = true
    rw [hrest _ h1]
    simp [Json.find, objFind, h3]
  · show (rd.find KEY_RESULT_VALUES).isSome = true
    rw [hrest _ h2]
    simp [Json.find, objFind]
  · intro k hk
    by_cases hke : k = KEY_EXCEPTION
    · exact Or.inr (Or.inr hke)
    · replace hk : (rd.find k).isSome = true := hk
      rw [hrest _ hke] at hk
      by_cases hkr : k = KEY_RESULT_VALUES
      · exact Or.inr (Or.inl hkr)
      · by_cases hku : k = KEY_UPDATED_CALLER
        · exact Or.inl hku
        · simp [Json.find, objFind, hkr, hku] at hk

/-- C8 amended, instance: both texts parse and handler 2 accepts. -/
theorem ApiTransact_envelope_keys_witness :
    sampleParse "null" = .ok .null ∧ sampleParse "[]" = .ok (.arr []) ∧
    ∃ res : TransactResult,
      ApiTransact specErrorName sampleParse sampleDump sampleCode { handlers_ := [2] }
        (ApiCallErr.ofCode specErrorName .NO_ERROR) "click" "null" "[]" = .ok res ∧
      res.returnData.contains KEY_UPDATED_CALLER = true ∧
      res.returnData.contains KEY_RESULT_VALUES = true ∧
      (∀ k, res.returnData.contains k = true →
        k = KEY_UPDATED_CALLER ∨ k = KEY_RESULT_VALUES ∨ k = KEY_EXCEPTION) :=
  ⟨rfl, rfl,
   ApiTransact_envelope_keys specErrorName sampleParse sampleDump sampleCode { handlers_ := [2] }
     (ApiCallErr.ofCode specErrorName .NO_ERROR) "click" "null" "[]" .null (.arr []) rfl rfl⟩

/-- Only `NO_ERROR` has the numeric code zero. -/
theorem ErrCode.toNat_eq_zero (ec : ErrCode) : ec.toNat = 0 ↔ ec = .NO_ERROR := by
  cases ec <;> simp [ErrCode.toNat]

/-- The code of the merged error is not below the code of the local error. -/
theorem applyUntracked_code_ge (error untracked : ApiCallErr) :
    error.code_.toNat ≤ (applyUntracked error untracked).code_.toNat := by
  unfold applyUntracked
  split
  · rename_i hlt
    exact Nat.le_of_lt hlt
  · exact Nat.le_refl _

/-- C9: for every request whose caller and parameter texts both parse, `ApiTransact`
returns (no exception leaves it) an object in which `updatedCaller` is the caller and
`resultValues` is the `out` array as left by the handlers that were invoked, run one after
the other from the parsed caller and an empty array: the writes of handlers that declined or
raised are kept. This holds however dispatch ended; when dispatch ended with an error, the
object has an exception entry, which holds the final error. -/
theorem ApiTransact_keeps_handler_writes (GetErrorName : ErrCode → String)
    (parse : String → Except String Json)
    (dump : Json → String) (code : ApiRequstHandler → HandlerFn) (server : ExternApiServer)
    (entry : ApiCallErr) (funcStr callerStr paramsStr : String) (c p : Json)
    (hc : parse callerStr = .ok c) (hp : parse paramsStr = .ok p) :
    ∃ res : TransactResult,
      ApiTransact GetErrorName parse dump code server entry funcStr callerStr paramsStr =
        .ok res ∧
      res.invoked = (server.Call GetErrorName code funcStr p (entryMem GetErrorName c)).invoked ∧
      res.returnData.find KEY_UPDATED_CALLER =
        some (memAfter code funcStr p (res.invoked.map (fun e => e.handler))
          (entryMem GetErrorName c)).caller ∧
      res.returnData.find KEY_RESULT_VALUES =
        some (memAfter code funcStr p (res.invoked.map (fun e => e.handler))
          (entryMem GetErrorName c)).out ∧
      ((server.Call GetErrorName code funcStr p (entryMem GetErrorName c)).mem.err.code_
          ≠ .NO_ERROR →
        res.error.code_ ≠ .NO_ERROR ∧
        res.returnData.find KEY_EXCEPTION = some (exceptionInfoOf GetErrorName res.error)) := by
  obtain ⟨rd, hrun, hexc, hrest⟩ := ApiTransact_returns GetErrorName parse dump code server entry
    funcStr callerStr paramsStr
  rw [afterTry_parsed hc hp] at hrun hexc hrest
  simp only at hrun hexc hrest
  obtain ⟨k, _, _, hpre, _, _, _, hcaller, hout, _⟩ :=
    callLoop_trace GetErrorName code funcStr p server.handlers_ (entryMem GetErrorName c)
  have h1 : KEY_UPDATED_CALLER ≠ KEY_EXCEPTION := by decide
  have h2 : KEY_RESULT_VALUES ≠ KEY_EXCEPTION := by decide
  have h3 : KEY_UPDATED_CALLER ≠ KEY_RESULT_VALUES := by decide
  refine ⟨_, hrun, rfl, ?_, ?_, ?_⟩
  · show rd.find KEY_UPDATED_CALLER = _
    rw [hrest _ h1]
    simp only [ExternApiServer.Call, hpre, hcaller]
    simp [Json.find, objFind, h3]
  · show rd.find KEY_RESULT_VALUES = _
    rw [hrest _ h2]
    simp only [ExternApiServer.Call, hpre, hout]
    simp [Json.find, objFind]
  · intro herr
    have hne : (applyUntracked
        (server.Call GetErrorName code funcStr p (entryMem GetErrorName c)).mem.err
        (server.Call GetErrorName code funcStr p (entryMem GetErrorName c)).mem.untracked).code_
        ≠ .NO_ERROR := by
      intro h0
      have hz := (ErrCode.toNat_eq_zero _).2 h0
      have hge := applyUntracked_code_ge
        (server.Call GetErrorName code funcStr p (entryMem GetErrorName c)).mem.err
        (server.Call GetErrorName code funcStr p (entryMem GetErrorName c)).mem.untracked
      exact herr ((ErrCode.toNat_eq_zero _).1 (by omega))
    refine ⟨hne, ?_⟩
    show rd.find KEY_EXCEPTION = _
    rw [hexc, if_neg hne]

/-- C9, instance: handler 1 appends to `out` and declines, handler 3 appends to `out` and
raises, handler 2 is not reached; the envelope holds both appended values and the exception. -/
theorem ApiTransact_keeps_handler_writes_witness :
    sampleParse "null" = .ok .null ∧ sampleParse "[]" = .ok (.arr []) ∧
    (ApiTransact specErrorName sampleParse sampleDump sampleCode { handlers_ := [1, 3, 2] }
      (ApiCallErr.ofCode specErrorName .NO_ERROR) "click" "null" "[]").toOption.map
        (fun res => (res.returnData.find KEY_RESULT_VALUES, res.ret)) =
      some (some (.arr [.int 1, .int 3]), "exception,resultValues,updatedCaller") ∧
    ∃ res : TransactResult,
      ApiTransact specErrorName sampleParse sampleDump sampleCode { handlers_ := [1, 3, 2] }
        (ApiCallErr.ofCode specErrorName .NO_ERROR) "click" "null" "[]" = .ok res ∧
      res.invoked = (ExternApiServer.Call specErrorName sampleCode { handlers_ := [1, 3, 2] }
        "click" (.arr []) (entryMem specErrorName .null)).invoked ∧
      res.returnData.find KEY_UPDATED_CALLER =
        some (memAfter sampleCode "click" (.arr []) (res.invoked.map (fun e => e.handler))
          (entryMem specErrorName .null)).caller ∧
      res.returnData.find KEY_RESULT_VALUES =
        some (memAfter sampleCode "click" (.arr []) (res.invoked.map (fun e => e.handler))
          (entryMem specErrorName .null)).out ∧
      ((ExternApiServer.Call specErrorName sampleCode { handlers_ := [1, 3, 2] }
          "click" (.arr []) (entryMem specErrorName .null)).mem.err.code_ ≠ .NO_ERROR →
        res.error.code_ ≠ .NO_ERROR ∧
        res.returnData.find KEY_EXCEPTION = some (exceptionInfoOf specErrorName res.error)) :=
  ⟨rfl, rfl, rfl,
   ApiTransact_keeps_handler_writes specErrorName sampleParse sampleDump sampleCode
     { handlers_ := [1, 3, 2] } (ApiCallErr.ofCode specErrorName .NO_ERROR) "click" "null" "[]"
     .null (.arr []) rfl rfl⟩

/-- Lemma: a value of an integral type is left unchanged by the cast to the type. -/
theorem IntType.wrap_of_inRange (t : IntType) (v : Int) (h : t.inRange v) : t.wrap v = v := by
  obtain ⟨sg, w⟩ := t
  cases sg <;> cases w <;>
    simp only [IntType.inRange, IntType.wrap, IntType.bits, if_true, if_false,
      Bool.false_eq_true] at h ⊢ <;>
    norm_num at h ⊢ <;> omega

/-- The tag written by `PushBackValueItemIntoJson` reads back as itself. -/
theorem TypeId.wrap_toNat (t : TypeId) :
    IntType.uint32.wrap ((t.toNat : Nat) : Int) = ((t.toNat : Nat) : Int) := by
  cases t <;> simp [IntType.wrap, IntType.uint32, IntType.bits, TypeId.toNat]

/-! ## Properties of the typed marshalling -/

theorem push_bool (b : Bool) (xs : List Json) :
    PushBackValueItemIntoJson (.bool b) (.arr xs) =
      .ok (.arr (xs ++ [.obj [(KEY_DATA_TYPE, .int (TypeId.BOOL.toNat : Nat)),
                              (KEY_DATA_VALUE, .bool b)]])) := rfl

theorem push_int (t : IntType) (n : Int) (xs : List Json) :
    PushBackValueItemIntoJson (.int t n) (.arr xs) =
      .ok (.arr (xs ++ [.obj [(KEY_DATA_TYPE, .int (TypeId.INT.toNat : Nat)),
                              (KEY_DATA_VALUE, .int n)]])) := rfl

theorem push_float (x : Nat) (xs : List Json) :
    PushBackValueItemIntoJson (.float x) (.arr xs) =
      .ok (.arr (xs ++ [.obj [(KEY_DATA_TYPE, .int (TypeId.FLOAT.toNat : Nat)),
                              (KEY_DATA_VALUE, .flt x)]])) := rfl

theorem push_string (s : String) (xs : List Json) :
    PushBackValueItemIntoJson (.string s) (.arr xs) =
      .ok (.arr (xs ++ [.obj [(KEY_DATA_TYPE, .int (TypeId.STRING.toNat : Nat)),
                              (KEY_DATA_VALUE, .str s)]])) := rfl

theorem push_api (obj : ExternApiObj) (xs : List Json) :
    PushBackValueItemIntoJson (.api obj) (.arr xs) =
      .ok (.arr (xs ++ [.obj [(KEY_DATA_TYPE, .int (obj.GetTypeId.toNat : Nat)),
                              (KEY_DATA_VALUE, obj.WriteIntoParcel .null)]])) := rfl

/-- C13: for every array `out` with items `xs` and every value, `PushBackValueItemIntoJson`
returns the array `xs ++ [item]`: exactly one item is appended, at position `xs.length`,
and the items before it are unchanged. The item is the object `{type, value}` whose tag is
`BOOL` for a `bool` (which differs from `INT`), `INT` for any other integral type, `FLOAT` for
a `float`, `STRING` for a string, and, for an object of an `ExternApi` class, the result of
its `GetTypeId()` with the value that its `WriteIntoParcel` produced. -/
theorem PushBack_appends_one_item (xs : List Json) :
    (∀ value : PushArg, ∃ item,
      PushBackValueItemIntoJson value (.arr xs) = .ok (.arr (xs ++ [item])) ∧
      (xs ++ [item]).length = xs.length + 1 ∧
      (xs ++ [item])[xs.length]? = some item ∧
      (∀ i, i < xs.length → (xs ++ [item])[i]? = xs[i]?) ∧
      (∀ k, item.contains k = true → k = KEY_DATA_TYPE ∨ k = KEY_DATA_VALUE)) ∧
    (∀ b : Bool, PushBackValueItemIntoJson (.bool b) (.arr xs) =
      .ok (.arr (xs ++ [.obj [(KEY_DATA_TYPE, .int (TypeId.BOOL.toNat : Nat)),
                              (KEY_DATA_VALUE, .bool b)]]))) ∧
    TypeId.BOOL.toNat ≠ TypeId.INT.toNat ∧
    (∀ (t : IntType) (n : Int), PushBackValueItemIntoJson (.int t n) (.arr xs) =
      .ok (.arr (xs ++ [.obj [(KEY_DATA_TYPE, .int (TypeId.INT.toNat : Nat)),
                              (KEY_DATA_VALUE, .int n)]]))) ∧
    (∀ x : Nat, PushBackValueItemIntoJson (.float x) (.arr xs) =
      .ok (.arr (xs ++ [.obj [(KEY_DATA_TYPE, .int (TypeId.FLOAT.toNat : Nat)),
                              (KEY_DATA_VALUE, .flt x)]]))) ∧
    (∀ s : String, PushBackValueItemIntoJson (.string s) (.arr xs) =
      .ok (.arr (xs ++ [.obj [(KEY_DATA_TYPE, .int (TypeId.STRING.toNat : Nat)),
                              (KEY_DATA_VALUE, .str s)]]))) ∧
    (∀ obj : ExternApiObj, PushBackValueItemIntoJson (.api obj) (.arr xs) =
      .ok (.arr (xs ++ [.obj [(KEY_DATA_TYPE, .int (obj.GetTypeId.toNat : Nat)),
                              (KEY_DATA_VALUE, obj.WriteIntoParcel .null)]]))) := by
  refine ⟨?_, fun b => push_bool b xs, by decide, fun t n => push_int t n xs,
    fun x => push_float x xs, fun s => push_string s xs, fun obj => push_api obj xs⟩
  intro value
  have hkeys : ∀ (a b : Json) (k : String),
      (Json.obj [(KEY_DATA_TYPE, a), (KEY_DATA_VALUE, b)]).contains k = true →
        k = KEY_DATA_TYPE ∨ k = KEY_DATA_VALUE := by
    intro a b k hk
    by_cases h1 : k = KEY_DATA_TYPE
    · exact Or.inl h1
    · by_cases h2 : k = KEY_DATA_VALUE
      · exact Or.inr h2
      · simp [Json.contains, Json.find, objFind, h1, h2] at hk
  have hpos : ∀ item : Json, (xs ++ [item]).length = xs.length + 1 ∧
      (xs ++ [item])[xs.length]? = some item ∧
      (∀ i, i < xs.length → (xs ++ [item])[i]? = xs[i]?) := by
    intro item
    refine ⟨by simp, by simp, ?_⟩
    intro i hi
    exact List.getElem?_append_left hi
  cases value with
  | bool b => exact ⟨_, push_bool b xs, (hpos _).1, (hpos _).2.1, (hpos _).2.2, hkeys _ _⟩
  | int t n => exact ⟨_, push_int t n xs, (hpos _).1, (hpos _).2.1, (hpos _).2.2, hkeys _ _⟩
  | float x => exact ⟨_, push_float x xs, (hpos _).1, (hpos _).2.1, (hpos _).2.2, hkeys _ _⟩
  | string s => exact ⟨_, push_string s xs, (hpos _).1, (hpos _).2.1, (hpos _).2.2, hkeys _ _⟩
  | api obj => exact ⟨_, push_api obj xs, (hpos _).1, (hpos _).2.1, (hpos _).2.2, hkeys _ _⟩

/-- The index check and the item access of `GetItemValueFromJson` on an array that has an
item at the index. -/
theorem getItem_bool_of_item (lib : NumLib) (xs : List Json) (i : Nat) (b : Bool)
    (h : xs[i]? = some (.obj [(KEY_DATA_TYPE, .int (TypeId.BOOL.toNat : Nat)),
                              (KEY_DATA_VALUE, .bool b)])) :
    GetItemValueFromJson lib .bool (.arr xs) i = .ok (.bool b) := by
  have hi : i < xs.length := by
    by_contra hge
    rw [List.getElem?_eq_none (Nat.le_of_not_lt hge)] at h
    cases h
  have h1 : KEY_DATA_VALUE ≠ KEY_DATA_TYPE := by decide
  simp [GetItemValueFromJson, DCHECK, Json.size, Json.at, h, hi, Json.atKey, objFind, h1,
    Json.getInt, Json.getBool, bind, Except.bind, TypeId.wrap_toNat, pure, Except.pure]

theorem getItem_int_of_item (lib : NumLib) (xs : List Json) (i : Nat) (t : IntType) (n : Int)
    (h : xs[i]? = some (.obj [(KEY_DATA_TYPE, .int (TypeId.INT.toNat : Nat)),
                              (KEY_DATA_VALUE, .int n)])) :
    GetItemValueFromJson lib (.int t) (.arr xs) i = .ok (.int (t.wrap n)) := by
  have hi : i < xs.length := by
    by_contra hge
    rw [List.getElem?_eq_none (Nat.le_of_not_lt hge)] at h
    cases h
  have h1 : KEY_DATA_VALUE ≠ KEY_DATA_TYPE := by decide
  simp [GetItemValueFromJson, DCHECK, Json.size, Json.at, h, hi, Json.atKey, objFind, h1,
    Json.getInt, bind, Except.bind, TypeId.wrap_toNat, pure, Except.pure]

theorem getItem_string_of_item (lib : NumLib) (xs : List Json) (i : Nat) (s : String)
    (h : xs[i]? = some (.obj [(KEY_DATA_TYPE, .int (TypeId.STRING.toNat : Nat)),
                              (KEY_DATA_VALUE, .str s)])) :
    GetItemValueFromJson lib .string (.arr xs) i = .ok (.string s) := by
  have hi : i < xs.length := by
    by_contra hge
    rw [List.getElem?_eq_none (Nat.le_of_not_lt hge)] at h
    cases h
  have h1 : KEY_DATA_VALUE ≠ KEY_DATA_TYPE := by decide
  simp [GetItemValueFromJson, DCHECK, Json.size, Json.at, h, hi, Json.atKey, objFind, h1,
    Json.getInt, Json.getString, bind, Except.bind, TypeId.wrap_toNat, pure, Except.pure]

/-- On an array of `2 ^ 32` items the index `out.size() - 1` of the item just pushed is
`2 ^ 32`, which converts to the `uint32_t` value 0: the read returns the first item. -/
theorem getItem_index_wraps (lib : NumLib) (xs : List Json) (b0 b : Bool)
    (hlen : xs.length = 4294967296)
    (h0 : xs[0]? = some (.obj [(KEY_DATA_TYPE, .int (TypeId.BOOL.toNat : Nat)),
                               (KEY_DATA_VALUE, .bool b0)])) :
    PushBackValueItemIntoJson (.bool b) (.arr xs) =
      .ok (.arr (xs ++ [.obj [(KEY_DATA_TYPE, .int (TypeId.BOOL.toNat : Nat)),
                              (KEY_DATA_VALUE, .bool b)]])) ∧
    GetItemValueFromJson lib .bool
      (.arr (xs ++ [.obj [(KEY_DATA_TYPE, .int (TypeId.BOOL.toNat : Nat)),
                          (KEY_DATA_VALUE, .bool b)]]))
      (toUInt32 ((Json.arr (xs ++ [.obj [(KEY_DATA_TYPE, .int (TypeId.BOOL.toNat : Nat)),
                          (KEY_DATA_VALUE, .bool b)]])).size - 1)) = .ok (.bool b0) := by
  refine ⟨push_bool b xs, ?_⟩
  have hidx : toUInt32 ((Json.arr (xs ++ [.obj [(KEY_DATA_TYPE, .int (TypeId.BOOL.toNat : Nat)),
      (KEY_DATA_VALUE, .bool b)]])).size - 1) = 0 := by
    simp only [Json.size, List.length_append, List.length_singleton, hlen, toUInt32]
    norm_num
  rw [hidx]
  apply getItem_bool_of_item
  rw [List.getElem?_append_left (by rw [hlen]; norm_num)]
  exact h0

/-- C11, as stated, fails: on the array of `2 ^ 32` items that hold `false`, after the push
of `true` the call `GetItemValueFromJson<bool>(out, out.size() - 1)`, whose index parameter
is a `uint32_t`, reads item 0 and returns `false`. -/
theorem marshalling_round_trip_counterexample :
    PushBackValueItemIntoJson (.bool true) (.arr fullArray) =
      .ok (.arr (fullArray ++ [.obj [(KEY_DATA_TYPE, .int (TypeId.BOOL.toNat : Nat)),
                                     (KEY_DATA_VALUE, .bool true)]])) ∧
    GetItemValueFromJson sampleNumLib .bool
      (.arr (fullArray ++ [.obj [(KEY_DATA_TYPE, .int (TypeId.BOOL.toNat : Nat)),
                                 (KEY_DATA_VALUE, .bool true)]]))
      (toUInt32 ((Json.arr (fullArray ++ [.obj [(KEY_DATA_TYPE, .int (TypeId.BOOL.toNat : Nat)),
                                 (KEY_DATA_VALUE, .bool true)]])).size - 1)) =
      .ok (.bool false) :=
  getItem_index_wraps sampleNumLib fullArray false true
    (List.length_replicate _ _)
    (by rw [fullArray, List.getElem?_replicate, if_pos (by norm_num)]; rfl)

/-- C11, amended: for every JSON array `out` with fewer than `2 ^ 32` items and every value
`v` of type `bool`, of an integral type, or of type string, after
`PushBackValueItemIntoJson<T>(v, out)` the call `GetItemValueFromJson<T>(out, out.size() - 1)`
succeeds and returns `v`. -/
theorem marshalling_round_trip (lib : NumLib) (xs : List Json) (hsize : xs.length < 2 ^ 32) :
    (∀ b : Bool, ∃ out,
      PushBackValueItemIntoJson (.bool b) (.arr xs) = .ok out ∧
      GetItemValueFromJson lib .bool out (toUInt32 (out.size - 1)) = .ok (.bool b)) ∧
    (∀ (t : IntType) (n : Int), t.inRange n → ∃ out,
      PushBackValueItemIntoJson (.int t n) (.arr xs) = .ok out ∧
      GetItemValueFromJson lib (.int t) out (toUInt32 (out.size - 1)) = .ok (.int n)) ∧
    (∀ s : String, ∃ out,
      PushBackValueItemIntoJson (.string s) (.arr xs) = .ok out ∧
      GetItemValueFromJson lib .string out (toUInt32 (out.size - 1)) = .ok (.string s)) := by
  have hidx : ∀ item : Json, toUInt32 ((Json.arr (xs ++ [item])).size - 1) = xs.length := by
    intro item
    simp only [Json.size, List.length_append, List.length_singleton, toUInt32,
      Nat.add_sub_cancel]
    exact Nat.mod_eq_of_lt hsize
  have hlast : ∀ item : Json, (xs ++ [item])[xs.length]? = some item := by
    intro item
    simp
  refine ⟨?_, ?_, ?_⟩
  · intro b
    refine ⟨_, push_bool b xs, ?_⟩
    rw [hidx]
    exact getItem_bool_of_item lib _ _ b (hlast _)
  · intro t n hn
    refine ⟨_, push_int t n xs, ?_⟩
    rw [hidx, getItem_int_of_item lib _ _ t n (hlast _), IntType.wrap_of_inRange t n hn]
  · intro s
    refine ⟨_, push_string s xs, ?_⟩
    rw [hidx]
    exact getItem_string_of_item lib _ _ s (hlast _)

/-- C11 amended, instance: the values `true`, `-7` as an `int32_t` and `"ok"` pushed on an
array of one item. -/
theorem marshalling_round_trip_witness :
    [falseItem].length < 2 ^ 32 ∧ IntType.int32.inRange (-7) ∧
    (∃ out,
      PushBackValueItemIntoJson (.int IntType.int32 (-7)) (.arr [falseItem]) = .ok out ∧
      GetItemValueFromJson sampleNumLib (.int IntType.int32) out (toUInt32 (out.size - 1)) =
        .ok (.int (-7))) :=
  ⟨by decide, by simp [IntType.inRange, IntType.int32, IntType.bits],
   (marshalling_round_trip sampleNumLib [falseItem] (by decide)).2.1 IntType.int32 (-7)
     (by simp [IntType.inRange, IntType.int32, IntType.bits])⟩

/-! ## Severity order and handler list maintenance -/

/-- C18: the numeric codes are `NO_ERROR = 0 < INTERNAL_ERROR = 1 < WIDGET_LOST = 2 <
USAGE_ERROR = 4`. In every run of `ApiTransact`: when dispatch ends with a local
`INTERNAL_ERROR` and the untracked slot holds a `WIDGET_LOST` or `USAGE_ERROR`, the final error
and the exception entry are the untracked error; and when the local error is a `WIDGET_LOST`
or `USAGE_ERROR` and the slot holds an `INTERNAL_ERROR`, they are the local error. -/
theorem error_severity_order (GetErrorName : ErrCode → String)
    (parse : String → Except String Json)
    (dump : Json → String) (code : ApiRequstHandler → HandlerFn) (server : ExternApiServer)
    (entry : ApiCallErr) (funcStr callerStr paramsStr : String) :
    (ErrCode.NO_ERROR.toNat = 0 ∧ ErrCode.INTERNAL_ERROR.toNat = 1 ∧
      ErrCode.WIDGET_LOST.toNat = 2 ∧ ErrCode.USAGE_ERROR.toNat = 4) ∧
    ∃ res : TransactResult,
      ApiTransact GetErrorName parse dump code server entry funcStr callerStr paramsStr =
        .ok res ∧
      ((afterTry GetErrorName parse code server funcStr callerStr paramsStr).error.code_ =
          .INTERNAL_ERROR →
        ((afterTry GetErrorName parse code server funcStr callerStr paramsStr).untracked.code_ =
            .WIDGET_LOST ∨
         (afterTry GetErrorName parse code server funcStr callerStr paramsStr).untracked.code_ =
            .USAGE_ERROR) →
        res.error =
          (afterTry GetErrorName parse code server funcStr callerStr paramsStr).untracked ∧
        res.returnData.find KEY_EXCEPTION = some (exceptionInfoOf GetErrorName
          (afterTry GetErrorName parse code server funcStr callerStr paramsStr).untracked)) ∧
      (((afterTry GetErrorName parse code server funcStr callerStr paramsStr).error.code_ =
            .WIDGET_LOST ∨
         (afterTry GetErrorName parse code server funcStr callerStr paramsStr).error.code_ =
            .USAGE_ERROR) →
        (afterTry GetErrorName parse code server funcStr callerStr paramsStr).untracked.code_ =
          .INTERNAL_ERROR →
        res.error =
          (afterTry GetErrorName parse code server funcStr callerStr paramsStr).error ∧
        res.returnData.find KEY_EXCEPTION = some (exceptionInfoOf GetErrorName
          (afterTry GetErrorName parse code server funcStr callerStr paramsStr).error)) := by
  refine ⟨⟨rfl, rfl, rfl, rfl⟩, ?_⟩
  obtain ⟨rd, hrun, hexc, _⟩ := ApiTransact_returns GetErrorName parse dump code server entry
    funcStr callerStr paramsStr
  refine ⟨_, hrun, ?_, ?_⟩
  · intro hloc hunt
    have hfin : applyUntracked
        (afterTry GetErrorName parse code server funcStr callerStr paramsStr).error
        (afterTry GetErrorName parse code server funcStr callerStr paramsStr).untracked =
        (afterTry GetErrorName parse code server funcStr callerStr paramsStr).untracked := by
      unfold applyUntracked
      rcases hunt with hu | hu <;> simp [hloc, hu, ErrCode.toNat]
    refine ⟨hfin, ?_⟩
    show rd.find KEY_EXCEPTION = _
    rw [hexc, hfin]
    rcases hunt with hu | hu <;> simp [hu]
  · intro hloc hunt
    have hfin : applyUntracked
        (afterTry GetErrorName parse code server funcStr callerStr paramsStr).error
        (afterTry GetErrorName parse code server funcStr callerStr paramsStr).untracked =
        (afterTry GetErrorName parse code server funcStr callerStr paramsStr).error := by
      unfold applyUntracked
      rcases hloc with hl | hl <;> simp [hl, hunt, ErrCode.toNat]
    refine ⟨hfin, ?_⟩
    show rd.find KEY_EXCEPTION = _
    rw [hexc, hfin]
    rcases hloc with hl | hl <;> simp [hl]

/-- C18, instances: handler 4 records an untracked `WIDGET_LOST` and handler 3 then raises,
the untracked error is reported; handler 6 records an untracked `INTERNAL_ERROR` and handler 5
then sets a local `USAGE_ERROR`, the local error is reported. -/
theorem error_severity_order_witness :
    (∃ res : TransactResult,
      ApiTransact specErrorName sampleParse sampleDump sampleCode { handlers_ := [4, 3] }
        (ApiCallErr.ofCode specErrorName .NO_ERROR) "click" "null" "[]" = .ok res ∧
      res.error = ApiCallErr.new specErrorName .WIDGET_LOST "lost") ∧
    (∃ res : TransactResult,
      ApiTransact specErrorName sampleParse sampleDump sampleCode { handlers_ := [6, 5] }
        (ApiCallErr.ofCode specErrorName .NO_ERROR) "click" "null" "[]" = .ok res ∧
      res.error = ApiCallErr.new specErrorName .USAGE_ERROR "bad key") :=
  ⟨(error_severity_order specErrorName sampleParse sampleDump sampleCode { handlers_ := [4, 3] }
      (ApiCallErr.ofCode specErrorName .NO_ERROR) "click" "null" "[]").2.elim
      (fun res h => ⟨res, h.1, (h.2.1 (by decide) (Or.inl (by decide))).1⟩),
   (error_severity_order specErrorName sampleParse sampleDump sampleCode { handlers_ := [6, 5] }
      (ApiCallErr.ofCode specErrorName .NO_ERROR) "click" "null" "[]").2.elim
      (fun res h => ⟨res, h.1, (h.2.2 (Or.inr (by decide)) (by decide)).1⟩)⟩

/-- C19: for every handler list and handler `h`, `RemoveHandler(h)` leaves a list without
`h` that is a sublist of the original (the relative order is kept) and in which every other
handler occurs as often as before, so that a later `Call` does not invoke `h`;
`AddHandler(nullptr)` leaves the list unchanged and `AddHandler` of a non-null handler
appends it at the end, also when it is registered already. -/
theorem handler_list_maintenance (GetErrorName : ErrCode → String)
    (code : ApiRequstHandler → HandlerFn) (s : ExternApiServer) (h : ApiRequstHandler)
    (apiId : String) (input : Json) (m : Mem) :
    h ∉ (s.RemoveHandler h).handlers_ ∧
    (s.RemoveHandler h).handlers_.Sublist s.handlers_ ∧
    (∀ g, g ≠ h → (s.RemoveHandler h).handlers_.count g = s.handlers_.count g) ∧
    (∀ e ∈ ((s.RemoveHandler h).Call GetErrorName code apiId input m).invoked,
      e.handler ≠ h) ∧
    s.AddHandler nullptr = s ∧
    (h ≠ nullptr → (s.AddHandler h).handlers_ = s.handlers_ ++ [h]) := by
  have hnot : h ∉ (s.RemoveHandler h).handlers_ := by
    simp [ExternApiServer.RemoveHandler, List.mem_filter]
  refine ⟨hnot, ?_, ?_, ?_, ?_, ?_⟩
  · exact List.filter_sublist _
  · intro g hg
    simp only [ExternApiServer.RemoveHandler]
    rw [List.count_filter]
    simpa using hg
  · intro e he heq
    obtain ⟨k, _, _, hpre, _⟩ := callLoop_trace GetErrorName code apiId input
      (s.RemoveHandler h).handlers_ m
    have hmem : e.handler ∈ (s.RemoveHandler h).handlers_.take k := by
      rw [← hpre]
      exact List.mem_map_of_mem _ he
    have hin := List.mem_of_mem_take hmem
    rw [heq] at hin
    exact hnot hin
  · simp [ExternApiServer.AddHandler]
  · intro hh
    simp [ExternApiServer.AddHandler, hh]

/-- C19, instance: handler 2 is registered twice among handler 1; after its removal a call
invokes handler 1 only, and a non-null handler is appended at the end. -/
theorem handler_list_maintenance_witness :
    (2 : ApiRequstHandler) ≠ nullptr ∧
    (ExternApiServer.AddHandler { handlers_ := [2, 1, 2] } 2).handlers_ = [2, 1, 2] ++ [2] ∧
    (ExternApiServer.RemoveHandler { handlers_ := [2, 1, 2] } 2).handlers_ = [1] :=
  ⟨by decide,
   (handler_list_maintenance specErrorName sampleCode { handlers_ := [2, 1, 2] } 2 "click"
      (.arr []) sampleMem).2.2.2.2.2 (by decide),
   by decide⟩

/-- An integer tag is read into the `uint32_t` variable `typeId` modulo `2 ^ 32`. -/
theorem getInt_uint32 (lib : NumLib) (n : Int) :
    Json.getInt lib IntType.uint32 (.int n) = .ok (n % 2 ^ 32) := by
  simp [Json.getInt, IntType.wrap, IntType.uint32, IntType.bits]

/-- A read in which the tag read from the item is not one that the requested type accepts
fails at the check of the tag. -/
theorem getItem_tag_mismatch (lib : NumLib) (T : ValType) (xs : List Json) (i : Nat)
    (item : Json) (typeId : Int)
    (hitem : xs[i]? = some item)
    (htag : (item.atKey KEY_DATA_TYPE >>= Json.getInt lib IntType.uint32) = .ok typeId)
    (hmis : T.acceptsTag typeId = false) :
    GetItemValueFromJson lib T (.arr xs) i = .error "DCHECK failed" := by
  have hi : i < xs.length := by
    by_contra hge
    rw [List.getElem?_eq_none (Nat.le_of_not_lt hge)] at hitem
    cases hitem
  have hstart : GetItemValueFromJson lib T (.arr xs) i =
      ((item.atKey KEY_DATA_TYPE >>= Json.getInt lib IntType.uint32) >>= fun typeId =>
        match T with
        | .bool => do
          DCHECK (decide (typeId = TypeId.BOOL.toNat))
          let value ← (item.atKey KEY_DATA_VALUE) >>= Json.getBool
          return .bool value
        | .int t => do
          DCHECK (decide (typeId = TypeId.INT.toNat))
          let value ← (item.atKey KEY_DATA_VALUE) >>= Json.getInt lib t
          return .int value
        | .float => do
          DCHECK (decide (typeId = TypeId.FLOAT.toNat))
          let value ← (item.atKey KEY_DATA_VALUE) >>= Json.getFloat lib
          return .float value
        | .string => do
          DCHECK (decide (typeId = TypeId.STRING.toNat))
          let value ← (item.atKey KEY_DATA_VALUE) >>= Json.getString
          return .string value
        | .json => do
          DCHECK (decide ((TypeId.BY.toNat : Int) ≤ typeId) &&
            decide (typeId ≤ (TypeId.RECT_JSON.toNat : Int)))
          let value ← item.atKey KEY_DATA_VALUE
          return .json value) := by
    simp [GetItemValueFromJson, DCHECK, Json.size, Json.at, hitem, hi, bind, Except.bind]
  rw [hstart, htag]
  cases T
  case json =>
    have hneg : ¬ ((TypeId.BY.toNat : Int) ≤ typeId ∧ typeId ≤ (TypeId.RECT_JSON.toNat : Int)) := by
      intro hboth
      simp [ValType.acceptsTag, hboth.1, hboth.2] at hmis
    simp [DCHECK, bind, Except.bind, hneg]
  all_goals
    simp_all [DCHECK, bind, Except.bind, ValType.acceptsTag]

/-- C12, as stated, fails twice. The function reads the tag into a `uint32_t`: the item
`{type: 4294967297, value: true}` has a tag that is not `BOOL` (1), and read as a `bool` it
returns `true`. And a failed read does not always surface as `INTERNAL_ERROR`: handler 7
records an untracked `WIDGET_LOST` and then reads its first parameter, a string item, as an
`int32_t` (the tag check fails, and the payload is no number either); the envelope reports
the `WIDGET_LOST`. -/
theorem read_type_mismatch_counterexample :
    wideTagItem.find KEY_DATA_TYPE = some (.int 4294967297) ∧
    (4294967297 : Int) ≠ TypeId.BOOL.toNat ∧
    ValType.bool.acceptsTag 4294967297 = false ∧
    GetItemValueFromJson sampleNumLib .bool (.arr [wideTagItem]) 0 = .ok (.bool true) ∧
    sampleParse "[\x7b\"type\":4,\"value\":\"x\"\x7d]" = .ok (.arr [stringItem]) ∧
    GetItemValueFromJson sampleNumLib (.int IntType.int32) (.arr [stringItem]) 0 =
      .error "DCHECK failed" ∧
    (ApiTransact specErrorName sampleParse sampleDump readerCode { handlers_ := [7] }
      (ApiCallErr.ofCode specErrorName .NO_ERROR) "click" "null"
      "[\x7b\"type\":4,\"value\":\"x\"\x7d]").toOption.map
        (fun res => (res.error.code_,
          ((res.returnData.find KEY_EXCEPTION).bind (fun e => e.find KEY_CODE)).map
            sampleDump)) =
      some (ErrCode.WIDGET_LOST, some "WIDGET_LOST") := by
  refine ⟨rfl, by decide, by decide, rfl, rfl, rfl, ?_⟩
  decide

/-- C12, amended: for every array, index and requested type `T`: an integer tag is read
modulo `2 ^ 32`; if the type tag that the function reads from the item (its `type` member
converted to `uint32_t`) is not one that `T` accepts, the read fails and returns no value;
and in a run of `ApiTransact` in which a handler lets this failure leave as an exception
(the handlers before it having declined), the envelope has an `INTERNAL_ERROR` exception
whose message ends with the text of the failure, unless the untracked slot holds an error
with a code above `INTERNAL_ERROR` (such an error is reported instead). -/
theorem read_type_mismatch (lib : NumLib) (GetErrorName : ErrCode → String)
    (parse : String → Except String Json)
    (dump : Json → String) (code : ApiRequstHandler → HandlerFn)
    (entry : ApiCallErr) (funcStr callerStr paramsStr : String) (c p : Json)
    (pre post : List ApiRequstHandler) (h : ApiRequstHandler)
    (T : ValType) (xs : List Json) (i : Nat) (item : Json) (typeId : Int)
    (hitem : xs[i]? = some item)
    (htag : (item.atKey KEY_DATA_TYPE >>= Json.getInt lib IntType.uint32) = .ok typeId)
    (hmis : T.acceptsTag typeId = false)
    (hc : parse callerStr = .ok c) (hp : parse paramsStr = .ok p)
    (hdecl : allDecline code funcStr p pre (entryMem GetErrorName c) = true)
    (hraise : ∀ w, GetItemValueFromJson lib T (.arr xs) i = .error w →
      (code h funcStr p (memAfter code funcStr p pre (entryMem GetErrorName c))).2 = .raise w)
    (hslot : (code h funcStr p
      (memAfter code funcStr p pre (entryMem GetErrorName c))).1.untracked.code_.toNat ≤
        ErrCode.INTERNAL_ERROR.toNat) :
    (∀ n : Int, Json.getInt lib IntType.uint32 (.int n) = .ok (n % 2 ^ 32)) ∧
    (∃ w, GetItemValueFromJson lib T (.arr xs) i = .error w ∧
      ∃ (res : TransactResult) (exc : Json),
        ApiTransact GetErrorName parse dump code { handlers_ := pre ++ h :: post } entry
          funcStr callerStr paramsStr = .ok res ∧
        res.error.code_ = .INTERNAL_ERROR ∧
        res.returnData.find KEY_EXCEPTION = some exc ∧
        exc.find KEY_CODE = some (.str (GetErrorName .INTERNAL_ERROR)) ∧
        exc.find KEY_MESSAGE = some (.str
          ("[" ++ GetErrorName .INTERNAL_ERROR ++ "]:Exception raised when handling '" ++
            funcStr ++ "':" ++ w))) := by
  refine ⟨getInt_uint32 lib, ?_⟩
  have hread := getItem_tag_mismatch lib T xs i item typeId hitem htag hmis
  refine ⟨_, hread, ?_⟩
  have hr := hraise _ hread
  obtain ⟨rd, hrun, hexc, _⟩ := ApiTransact_returns GetErrorName parse dump code
    { handlers_ := pre ++ h :: post } entry funcStr callerStr paramsStr
  have hcall : ExternApiServer.Call GetErrorName code { handlers_ := pre ++ h :: post } funcStr p
      (entryMem GetErrorName c) =
      { mem := { (code h funcStr p (memAfter code funcStr p pre (entryMem GetErrorName c))).1 with
                 err := ApiCallErr.new GetErrorName .INTERNAL_ERROR
                   ("Exception raised when handling '" ++ funcStr ++ "':" ++ "DCHECK failed") },
        invoked := pre.map (fun h0 => ⟨h0, .ret false⟩) ++ [⟨h, .raise "DCHECK failed"⟩] } := by
    unfold ExternApiServer.Call
    simp only
    rw [callLoop_append_decline GetErrorName code funcStr p pre (h :: post) _ hdecl,
      callLoop_cons_raise hr]
  rw [afterTry_parsed hc hp, hcall] at hrun hexc
  simp only at hrun hexc
  have hfin : applyUntracked
      (ApiCallErr.new GetErrorName .INTERNAL_ERROR
        ("Exception raised when handling '" ++ funcStr ++ "':" ++ "DCHECK failed"))
      (code h funcStr p (memAfter code funcStr p pre (entryMem GetErrorName c))).1.untracked =
      ApiCallErr.new GetErrorName .INTERNAL_ERROR
        ("Exception raised when handling '" ++ funcStr ++ "':" ++ "DCHECK failed") := by
    unfold applyUntracked
    rw [if_neg]
    simpa [ApiCallErr.new, ErrCode.toNat] using hslot
  rw [hfin] at hrun hexc
  have hne : (ApiCallErr.new GetErrorName .INTERNAL_ERROR
      ("Exception raised when handling '" ++ funcStr ++ "':" ++ "DCHECK failed")).code_ ≠
      .NO_ERROR := by
    simp [ApiCallErr.new]
  rw [if_neg hne] at hexc
  refine ⟨_, _, hrun, rfl, hexc, rfl, ?_⟩
  have h1 : KEY_MESSAGE ≠ KEY_CODE := by decide
  simp only [exceptionInfoOf, Json.find, objFind, ApiCallErr.new, String.append_assoc, h1,
    if_false, if_true]
  rfl

/-- C12 amended, instance: handler 8 reads its first parameter, a string item (tag 4), as an
`int32_t` and records no untracked error. -/
theorem read_type_mismatch_witness :
    ([stringItem] : List Json)[0]? = some stringItem ∧
    (stringItem.atKey KEY_DATA_TYPE >>= Json.getInt sampleNumLib IntType.uint32) = .ok 4 ∧
    (ValType.int IntType.int32).acceptsTag 4 = false ∧
    sampleParse "null" = .ok .null ∧
    (∃ w, GetItemValueFromJson sampleNumLib (.int IntType.int32) (.arr [stringItem]) 0 =
        .error w ∧
      ∃ (res : TransactResult) (exc : Json),
        ApiTransact specErrorName sampleParse sampleDump readerCode { handlers_ := [1] ++ 8 :: [2] }
          (ApiCallErr.ofCode specErrorName .NO_ERROR) "click" "null"
          "[\x7b\"type\":4,\"value\":\"x\"\x7d]" = .ok res ∧
        res.error.code_ = .INTERNAL_ERROR ∧
        res.returnData.find KEY_EXCEPTION = some exc ∧
        exc.find KEY_CODE = some (.str (specErrorName .INTERNAL_ERROR)) ∧
        exc.find KEY_MESSAGE = some (.str
          ("[" ++ specErrorName .INTERNAL_ERROR ++ "]:Exception raised when handling '" ++
            "click" ++ "':" ++ w))) :=
  ⟨rfl, rfl, by decide, rfl,
   (read_type_mismatch sampleNumLib specErrorName sampleParse sampleDump readerCode
     (ApiCallErr.ofCode specErrorName .NO_ERROR) "click" "null"
     "[\x7b\"type\":4,\"value\":\"x\"\x7d]" .null (.arr [stringItem]) [1] [2] 8
     (.int IntType.int32) [stringItem] 0 stringItem 4 rfl rfl (by decide) rfl rfl (by decide)
     (fun w hw => by
       have h0 : GetItemValueFromJson sampleNumLib (.int IntType.int32) (.arr [stringItem]) 0 =
           .error "DCHECK failed" := rfl
       rw [h0] at hw
       cases hw
       rfl)
     (by decide)).2⟩

/-! ## Properties of the widget-interaction engine -/

/-- A registry in which no controller is workable for the device has no controller for it. -/
theorem getController_none (controllers_ : List UiController) (device : String)
    (hreg : ∀ c ∈ controllers_,
      ¬ (c.workable = true ∧ (c.targetDevice_ = "" ∨ c.targetDevice_ = device))) :
    UiController.GetController controllers_ device = none := by
  unfold UiController.GetController
  rw [List.find?_eq_none]
  intro c hc
  have h := hreg c hc
  simpa using h

/-- C14: for every widget image and widget operation, when the registry holds no workable
controller for the driver's device, `PerformWidgetOperate` sets the error code to
`INTERNAL_ERROR`, leaves the image as it was and is served by no controller, so that no touch
event is injected. -/
theorem no_controller_internal_error (GetErrorName : ErrCode → String)
    (controllers_ : List UiController) (driver : UiDriver) (image : WidgetImage)
    (op : WidgetOp) (err : ApiCallErr)
    (hreg : ∀ c ∈ controllers_,
      ¬ (c.workable = true ∧ (c.targetDevice_ = "" ∨ c.targetDevice_ = driver.device))) :
    (driver.PerformWidgetOperate GetErrorName controllers_ image op err).err.code_ =
      .INTERNAL_ERROR ∧
    (driver.PerformWidgetOperate GetErrorName controllers_ image op err).controller = none ∧
    (driver.PerformWidgetOperate GetErrorName controllers_ image op err).value = image := by
  have hnone := getController_none controllers_ driver.device hreg
  simp [UiDriver.PerformWidgetOperate, UiDriver.withController, hnone, ApiCallErr.new]

/-- C14, instance: the test `internalError`: the mock controller is removed from the
registry and a click on an empty image is requested. -/
theorem no_controller_internal_error_witness :
    (∀ c ∈ UiController.RemoveController [MockController []] "mock_controller",
      ¬ (c.workable = true ∧ (c.targetDevice_ = "" ∨ c.targetDevice_ = "dev"))) ∧
    (UiDriver.PerformWidgetOperate specErrorName
      (UiController.RemoveController [MockController []] "mock_controller")
      { device := "dev" } WidgetImage.empty .CLICK
      (ApiCallErr.ofCode specErrorName .NO_ERROR)).err.code_ = .INTERNAL_ERROR :=
  have hreg : ∀ c ∈ UiController.RemoveController [MockController []] "mock_controller",
      ¬ (c.workable = true ∧ (c.targetDevice_ = "" ∨ c.targetDevice_ = "dev")) := by
    intro c hc
    simp [UiController.RemoveController, MockController] at hc
  ⟨hreg,
   (no_controller_internal_error specErrorName
      (UiController.RemoveController [MockController []] "mock_controller")
      { device := "dev" } WidgetImage.empty .CLICK
      (ApiCallErr.ofCode specErrorName .NO_ERROR) hreg).1⟩

/-- The images produced by `FindWidgets(s)` carry the description of `s`. -/
theorem findWidgets_desc (GetErrorName : ErrCode → String) (Describe : WidgetSelector → String)
    (controllers_ : List UiController) (driver : UiDriver) (s : WidgetSelector)
    (err : ApiCallErr) (image : WidgetImage)
    (himg : image ∈ (driver.FindWidgets GetErrorName Describe controllers_ s err).value) :
    image.selectionDesc = Describe s := by
  unfold UiDriver.FindWidgets UiDriver.withController at himg
  cases hc : UiController.GetController controllers_ driver.device with
  | none => simp [hc] at himg
  | some c =>
    simp only [hc, findWidgetsOn, List.mem_map] at himg
    obtain ⟨n, _, rfl⟩ := himg
    rfl

/-- An image with no candidate in a snapshot does not resolve in it. -/
theorem resolve_none_of_candidates (image : WidgetImage) (snapshot : Node)
    (h : image.candidates snapshot = []) : image.resolve snapshot = none := by
  simp [WidgetImage.resolve, h]

/-- C15: for every selector `s` and every image produced by `FindWidgets(s)`, if the
snapshot that the controller serves next contains no node that re-resolves the image, then
`PerformWidgetOperate` sets the error code to `WIDGET_LOST` and injects no event, and
`ScrollSearch` with the image as subject returns null with the error code `WIDGET_LOST`
(whatever the bound on its rounds) and injects no event; in both cases the error message
contains `s.Describe()`. -/
theorem widget_lost (GetErrorName : ErrCode → String) (Describe : WidgetSelector → String)
    (found : List UiController) (finder : UiDriver) (s : WidgetSelector) (err0 : ApiCallErr)
    (image : WidgetImage)
    (himg : image ∈ (finder.FindWidgets GetErrorName Describe found s err0).value)
    (controllers_ : List UiController) (driver : UiDriver) (c : UiController)
    (hc : UiController.GetController controllers_ driver.device = some c)
    (hlost : image.candidates (c.GetCurrentUiDom c.domCalls) = [])
    (op : WidgetOp) (err : ApiCallErr) (moves fuel : Nat) (target : WidgetSelector)
    (startOffset : Int) :
    ((driver.PerformWidgetOperate GetErrorName controllers_ image op err).err.code_ =
        .WIDGET_LOST ∧
      (∃ pre post,
        (driver.PerformWidgetOperate GetErrorName controllers_ image op err).err.message_ =
          pre ++ Describe s ++ post) ∧
      ∃ c1, (driver.PerformWidgetOperate GetErrorName controllers_ image op err).controller =
          some c1 ∧ c1.touchLog = c.touchLog) ∧
    ∃ outcome,
      driver.ScrollSearch GetErrorName Describe moves fuel controllers_ image target err
        startOffset = some outcome ∧
      outcome.value = none ∧
      outcome.err.code_ = .WIDGET_LOST ∧
      (∃ pre post, outcome.err.message_ = pre ++ Describe s ++ post) ∧
      ∃ c1, outcome.controller = some c1 ∧ c1.touchLog = c.touchLog := by
  have hdesc := findWidgets_desc GetErrorName Describe found finder s err0 image himg
  have hres : image.resolve c.fetchDom.1 = none :=
    resolve_none_of_candidates image _ hlost
  have hmsg : (lostError GetErrorName image).message_ =
      ("[" ++ GetErrorName .WIDGET_LOST ++ "]:" ++ "Widget is lost: ") ++ Describe s ++ "" := by
    simp only [lostError, ApiCallErr.new, hdesc, String.append_assoc, String.append_empty]
  refine ⟨?_, ?_⟩
  · simp only [UiDriver.PerformWidgetOperate, UiDriver.withController, hc,
      performWidgetOperateOn, hres]
    exact ⟨rfl, ⟨_, _, hmsg⟩, _, rfl, rfl⟩
  · simp only [UiDriver.ScrollSearch, hc, scrollSearchOn, hres]
    exact ⟨_, rfl, rfl, rfl, ⟨_, _, hmsg⟩, _, rfl, rfl⟩

/-- C15, instance: the test `retrieveWidgetFailure`: the image is found by `text EQ "USB"`,
then the controller serves a snapshot without such a node and a click is requested. -/
theorem widget_lost_witness :
    usbImage ∈ (UiDriver.FindWidgets specErrorName sampleDescribe
      [MockController [childFrame "USB"]] { device := "" } (textSelector "USB")
      (ApiCallErr.ofCode specErrorName .NO_ERROR)).value ∧
    usbImage.candidates ((MockController [childFrame "WYZ"]).GetCurrentUiDom
      (MockController [childFrame "WYZ"]).domCalls) = [] ∧
    (UiDriver.PerformWidgetOperate specErrorName [MockController [childFrame "WYZ"]]
      { device := "" } usbImage .CLICK (ApiCallErr.ofCode specErrorName .NO_ERROR)).err.code_ =
        .WIDGET_LOST :=
  ⟨by decide, rfl,
   (widget_lost specErrorName sampleDescribe [MockController [childFrame "USB"]] { device := "" }
      (textSelector "USB") (ApiCallErr.ofCode specErrorName .NO_ERROR) usbImage (by decide)
      [MockController [childFrame "WYZ"]] { device := "" } (MockController [childFrame "WYZ"])
      rfl rfl .CLICK (ApiCallErr.ofCode specErrorName .NO_ERROR) 3 10
      (textSelector "xyz") 0).1.1⟩

/-! ## Lemmas on the scroll search -/

/-- Resolution uses only the hashcode and the selector of an image. -/
theorem resolve_congr (s t : WidgetImage) (n : Node)
    (hh : s.hashcode = t.hashcode) (hs : s.selector = t.selector) :
    s.resolve n = t.resolve n := by
  simp [WidgetImage.resolve, WidgetImage.candidates, hh, hs]

/-- The bounds of the subject in a frame in which it resolves to a node with bounds. -/
theorem subjectBounds_eq (subject : WidgetImage) (snapshot node : Node) (b : Rect)
    (hres : subject.resolve snapshot = some node) (hb : node.bounds = some b) :
    subjectBounds subject snapshot = b := by
  simp [subjectBounds, hres, hb]

/-- One round of a phase that finds no match: the gesture of the frame is injected, the next
frame is fetched, and the phase ends frozen or goes on with the next frame. -/
theorem scrollPhase_step (GetErrorName : ErrCode → String) (Describe : WidgetSelector → String)
    (moves : Nat) (target : WidgetSelector) (err : ApiCallErr) (up : Bool) (fuel : Nat)
    (c : UiController) (subject : WidgetImage) (i : Nat) (s : WidgetImage) (ci : UiController)
    (inv : RoundInv moves c subject i s ci)
    (hup : up = decide (frozenCount (framesFrom c) i = 0))
    (hno : target.FindAll (framesFrom c i) = [])
    (hok : ∃ node b, subject.resolve (framesFrom c i) = some node ∧ node.bounds = some b)
    (hnext : ∃ node, subject.resolve (framesFrom c (i + 1)) = some node) :
    ∃ s1 c1, RoundInv moves c subject (i + 1) s1 c1 ∧
      scrollPhase GetErrorName Describe moves target err up (fuel + 1) (framesFrom c i) s ci =
        if Node.same (framesFrom c (i + 1)) (framesFrom c i) = true then
          some (.frozen (framesFrom c (i + 1)) s1 c1)
        else
          scrollPhase GetErrorName Describe moves target err up fuel (framesFrom c (i + 1)) s1 c1 := by
  obtain ⟨node, b, hres, hb⟩ := hok
  obtain ⟨node0, hres0, hsb⟩ := inv.bnd
  have hnode : node0 = node := by
    rw [hres] at hres0
    exact (Option.some.inj hres0).symm
  subst hnode
  have hsb' : s.bounds = some b := by rw [hsb, hb]
  obtain ⟨node1, hres1⟩ := hnext
  have hfetch : (ci.InjectTouchEventSequence (scrollGesture moves b up)).fetchDom.1 =
      framesFrom c (i + 1) := by
    simp only [UiController.fetchDom, UiController.InjectTouchEventSequence, framesFrom,
      inv.dom, inv.calls]
    rfl
  have hres1' : s.resolve (framesFrom c (i + 1)) = some node1 := by
    rw [resolve_congr s subject _ inv.hash inv.sel, hres1]
  have hgest : gestureAt moves subject (framesFrom c) i = scrollGesture moves b up := by
    rw [gestureAt, subjectBounds_eq subject _ node0 b hres hb, hup]
  refine ⟨s.refresh node1, (ci.InjectTouchEventSequence (scrollGesture moves b up)).fetchDom.2,
    ?_, ?_⟩
  · exact
      { hash := inv.hash
        sel := inv.sel
        desc := inv.desc
        bnd := ⟨node1, hres1, rfl⟩
        dom := inv.dom
        calls := by
          simp only [UiController.fetchDom, UiController.InjectTouchEventSequence, inv.calls]
          omega
        log := by
          simp only [UiController.fetchDom, UiController.InjectTouchEventSequence, inv.log,
            List.range_succ, List.map_append, List.map_cons, List.map_nil, hgest,
            List.append_assoc] }
  · simp only [scrollPhase, hno, hsb', hfetch, hres1']

/-- A phase runs through frames that hold no match and are not identical to their
predecessor, one round and one gesture per frame. -/
theorem scrollPhase_run (GetErrorName : ErrCode → String) (Describe : WidgetSelector → String)
    (moves : Nat) (target : WidgetSelector) (err : ApiCallErr) (up : Bool)
    (c : UiController) (subject : WidgetImage) (d : Nat) :
    ∀ (i : Nat) (s : WidgetImage) (ci : UiController) (r : Nat),
      RoundInv moves c subject i s ci →
      (∀ j, i ≤ j → j < i + d → up = decide (frozenCount (framesFrom c) j = 0)) →
      (∀ j, i ≤ j → j < i + d → target.FindAll (framesFrom c j) = []) →
      (∀ j, i ≤ j → j ≤ i + d →
        ∃ node b, subject.resolve (framesFrom c j) = some node ∧ node.bounds = some b) →
      (∀ j, i ≤ j → j < i + d →
        Node.same (framesFrom c (j + 1)) (framesFrom c j) = false) →
      ∃ s1 c1, RoundInv moves c subject (i + d) s1 c1 ∧
        scrollPhase GetErrorName Describe moves target err up (d + r) (framesFrom c i) s ci =
          scrollPhase GetErrorName Describe moves target err up r (framesFrom c (i + d)) s1 c1 := by
  induction d with
  | zero =>
    intro i s ci r inv _ _ _ _
    exact ⟨s, ci, inv, by simp⟩
  | succ d ih =>
    intro i s ci r inv hup hno hok hnf
    obtain ⟨node1, b1, hres1, _⟩ := hok (i + 1) (by omega) (by omega)
    obtain ⟨s1, c1, inv1, hstep⟩ :=
      scrollPhase_step GetErrorName Describe moves target err up (d + r) c subject i s ci inv
        (hup i (Nat.le_refl _) (by omega))
        (hno i (Nat.le_refl _) (by omega)) (hok i (Nat.le_refl _) (by omega)) ⟨node1, hres1⟩
    have hfalse := hnf i (Nat.le_refl _) (by omega)
    rw [hfalse] at hstep
    simp only [Bool.false_eq_true, if_false] at hstep
    obtain ⟨s2, c2, inv2, hrun⟩ := ih (i + 1) s1 c1 r inv1
      (fun j h1 h2 => hup j (by omega) (by omega))
      (fun j h1 h2 => hno j (by omega) (by omega))
      (fun j h1 h2 => hok j (by omega) (by omega))
      (fun j h1 h2 => hnf j (by omega) (by omega))
    refine ⟨s2, c2, ?_, ?_⟩
    · have e : i + (d + 1) = i + 1 + d := by omega
      rw [e]
      exact inv2
    · have e : i + (d + 1) = i + 1 + d := by omega
      have e2 : d + 1 + r = d + r + 1 := by omega
      rw [e, e2, hstep, hrun]

/-- A phase that meets no match runs until the first frame identical to its predecessor and
ends frozen there, after one gesture per frame inspected. -/
theorem scrollPhase_to_frozen (GetErrorName : ErrCode → String)
    (Describe : WidgetSelector → String)
    (moves : Nat) (target : WidgetSelector) (err : ApiCallErr) (up : Bool)
    (c : UiController) (subject : WidgetImage) (i d fuel : Nat) (s : WidgetImage)
    (ci : UiController)
    (inv : RoundInv moves c subject i s ci)
    (hup : ∀ j, i ≤ j → j ≤ i + d → up = decide (frozenCount (framesFrom c) j = 0))
    (hno : ∀ j, i ≤ j → j ≤ i + d → target.FindAll (framesFrom c j) = [])
    (hok : ∀ j, i ≤ j → j ≤ i + d + 1 →
      ∃ node b, subject.resolve (framesFrom c j) = some node ∧ node.bounds = some b)
    (hnf : ∀ j, i ≤ j → j < i + d →
      Node.same (framesFrom c (j + 1)) (framesFrom c j) = false)
    (hfz : Node.same (framesFrom c (i + d + 1)) (framesFrom c (i + d)) = true)
    (hfuel : d < fuel) :
    ∃ s1 c1, RoundInv moves c subject (i + d + 1) s1 c1 ∧
      scrollPhase GetErrorName Describe moves target err up fuel (framesFrom c i) s ci =
        some (.frozen (framesFrom c (i + d + 1)) s1 c1) := by
  obtain ⟨s0, c0, inv0, hrun⟩ := scrollPhase_run GetErrorName Describe moves target err up c
    subject d i s ci (fuel - d) inv (fun j h1 h2 => hup j h1 (by omega))
    (fun j h1 h2 => hno j h1 (by omega))
    (fun j h1 h2 => hok j h1 (by omega)) hnf
  obtain ⟨node1, b1, hres1, _⟩ := hok (i + d + 1) (by omega) (by omega)
  obtain ⟨s1, c1, inv1, hstep⟩ :=
    scrollPhase_step GetErrorName Describe moves target err up (fuel - d - 1) c subject (i + d)
      s0 c0 inv0 (hup (i + d) (by omega) (by omega))
      (hno (i + d) (by omega) (by omega)) (hok (i + d) (by omega) (by omega))
      ⟨node1, hres1⟩
  rw [hfz] at hstep
  simp only [if_true] at hstep
  refine ⟨s1, c1, inv1, ?_⟩
  have e1 : fuel = d + (fuel - d) := by omega
  have e2 : fuel - d = fuel - d - 1 + 1 := by omega
  rw [e1, hrun, e2, hstep]

/-- The count of frozen frames does not decrease. -/
theorem frozenCount_mono (f : Nat → Node) {m n : Nat} (h : m ≤ n) :
    frozenCount f m ≤ frozenCount f n := by
  induction n with
  | zero =>
    have : m = 0 := by omega
    subst this
    exact Nat.le_refl _
  | succ n ih =>
    by_cases hm : m = n + 1
    · subst hm
      exact Nat.le_refl _
    · have := ih (by omega)
      simp only [frozenCount]
      omega

/-- With no frozen frame up to `n`, no frame up to `n` is identical to its predecessor. -/
theorem frozenCount_zero (f : Nat → Node) (n : Nat) (h : frozenCount f n = 0) :
    ∀ j, j < n → Node.same (f (j + 1)) (f j) = false := by
  induction n with
  | zero => intro j hj; omega
  | succ n ih =>
    simp only [frozenCount] at h
    intro j hj
    by_cases hjn : j = n
    · subst hjn
      by_contra hne
      simp only [Bool.not_eq_false] at hne
      rw [hne] at h
      simp at h
    · exact ih (by omega) j (by omega)

/-- With one frozen frame up to `n`, it is the frame `p + 1` for one `p < n`. -/
theorem frozenCount_one (f : Nat → Node) (n : Nat) (h : frozenCount f n = 1) :
    ∃ p, p < n ∧ Node.same (f (p + 1)) (f p) = true ∧ frozenCount f p = 0 ∧
      (∀ j, j < p → Node.same (f (j + 1)) (f j) = false) ∧
      (∀ j, p < j → j < n → Node.same (f (j + 1)) (f j) = false) := by
  induction n with
  | zero => simp [frozenCount] at h
  | succ n ih =>
    simp only [frozenCount] at h
    cases hs : Node.same (f (n + 1)) (f n) with
    | true =>
      rw [hs] at h
      simp only [if_true] at h
      have h0 : frozenCount f n = 0 := by omega
      exact ⟨n, by omega, hs, h0, frozenCount_zero f n h0, fun j h1 h2 => by omega⟩
    | false =>
      rw [hs] at h
      simp only [Bool.false_eq_true, if_false, Nat.add_zero] at h
      obtain ⟨p, hp, hsame, hzero, hbefore, hafter⟩ := ih h
      refine ⟨p, by omega, hsame, hzero, hbefore, ?_⟩
      intro j h1 h2
      by_cases hjn : j = n
      · subst hjn
        exact hs
      · exact hafter j h1 (by omega)

/-- After a frame identical to its predecessor the count of frozen frames is positive. -/
theorem frozenCount_pos_after (f : Nat → Node) (p j : Nat)
    (hsame : Node.same (f (p + 1)) (f p) = true) (hj : p < j) :
    frozenCount f j ≠ 0 := by
  have h1 : 1 ≤ frozenCount f (p + 1) := by
    simp only [frozenCount, hsame, if_true]
    omega
  have h2 := frozenCount_mono f (show p + 1 ≤ j from hj)
  omega

/-- Before the first frame identical to its predecessor the count of frozen frames is zero. -/
theorem frozenCount_zero_before (f : Nat → Node) (p j : Nat)
    (hzero : frozenCount f p = 0) (hj : j ≤ p) :
    frozenCount f j = 0 := by
  have h := frozenCount_mono f hj
  omega

/-- The state of the search after the refresh of the subject in the first frame. -/
theorem roundInv_start (moves : Nat) (c : UiController) (subject : WidgetImage) (node : Node)
    (hres : subject.resolve (framesFrom c 0) = some node) :
    RoundInv moves c subject 0 (subject.refresh node) c.fetchDom.2 :=
  { hash := rfl
    sel := rfl
    desc := rfl
    bnd := ⟨node, hres, rfl⟩
    dom := rfl
    calls := rfl
    log := by simp [UiController.fetchDom] }

/-- The search returns null without error at the second frozen frame when it met no match
before, after one snapshot per frame and the gestures of the frames before. -/
theorem scrollSearch_null (GetErrorName : ErrCode → String)
    (Describe : WidgetSelector → String) (moves fuel : Nat) (subject : WidgetImage)
    (target : WidgetSelector) (err : ApiCallErr) (startOffset : Int) (c : UiController)
    (q : Nat)
    (hfz : Node.same (framesFrom c (q + 1)) (framesFrom c q) = true)
    (hcount : frozenCount (framesFrom c) (q + 1) = 2)
    (hno : ∀ j, j ≤ q → target.FindAll (framesFrom c j) = [])
    (hok : ∀ j, j ≤ q + 1 →
      ∃ node b, subject.resolve (framesFrom c j) = some node ∧ node.bounds = some b)
    (hfuel : q < fuel) :
    ∃ c1,
      scrollSearchOn GetErrorName Describe moves fuel subject target err startOffset c =
        some { value := none, err := err, controller := c1 } ∧
      c1.domCalls = c.domCalls + (q + 1) + 1 ∧
      c1.touchLog =
        c.touchLog ++ (List.range (q + 1)).map (gestureAt moves subject (framesFrom c)) := by
  obtain ⟨node0, b0, hres0, _⟩ := hok 0 (Nat.zero_le _)
  have hstart : c.fetchDom.1 = framesFrom c 0 := rfl
  have inv0 := roundInv_start moves c subject node0 hres0
  have h1 : frozenCount (framesFrom c) q = 1 := by
    simp only [frozenCount, hfz, if_true] at hcount
    omega
  obtain ⟨p, hp, hsame, hzero, hbefore, hafter⟩ := frozenCount_one _ q h1
  obtain ⟨s1, c1, inv1, hrun1⟩ := scrollPhase_to_frozen GetErrorName Describe
    moves target err true c subject 0 p fuel _ _ inv0
    (fun j _ h2 => (decide_eq_true
      (frozenCount_zero_before _ p j hzero (by omega))).symm)
    (fun j _ h2 => hno j (by omega))
    (fun j _ h2 => hok j (by omega))
    (fun j _ h2 => hbefore j (by omega))
    (by simpa using hsame) (by omega)
  have e : 0 + p + 1 + (q - (p + 1)) = q := by omega
  obtain ⟨s2, c2, inv2, hrun2⟩ := scrollPhase_to_frozen GetErrorName
    Describe moves target err false c subject (0 + p + 1) (q - (p + 1)) fuel s1 c1 inv1
    (fun j h1 h2 => (decide_eq_false
      (frozenCount_pos_after _ p j hsame (by omega))).symm)
    (fun j h1 h2 => hno j (by omega))
    (fun j h1 h2 => hok j (by omega))
    (fun j h1 h2 => hafter j (by omega) (by omega))
    (by rw [e]; exact hfz) (by omega)
  rw [e] at inv2 hrun2
  refine ⟨c2, ?_, inv2.calls, inv2.log⟩
  simp only [scrollSearchOn, hstart, hres0, hrun1, hrun2]

mutual
/-- Identical snapshots are equal. -/
theorem Node.eq_of_same : ∀ (a b : Node), Node.same a b = true → a = b
  | .mk a b cs, .mk a2 b2 cs2, h => by
    simp only [Node.same, Bool.and_eq_true, decide_eq_true_eq] at h
    obtain ⟨⟨h1, h2⟩, h3⟩ := h
    rw [h1, h2, Node.eq_of_sameList cs cs2 h3]
/-- Lists of identical nodes are equal. -/
theorem Node.eq_of_sameList : ∀ (l1 l2 : List Node), Node.sameList l1 l2 = true → l1 = l2
  | [], [], _ => rfl
  | c :: cs, d :: ds, h => by
    simp only [Node.sameList, Bool.and_eq_true] at h
    rw [Node.eq_of_same c d h.1, Node.eq_of_sameList cs ds h.2]
  | [], _ :: _, h => by simp [Node.sameList] at h
  | _ :: _, [], h => by simp [Node.sameList] at h
end

/-! ## Lemmas on the y-coordinates of scroll gestures -/

/-- The loop of the test that finds `maxCyEventIndex`, run over a part `l` of the records
that starts at index `i`: the index kept is the first one of greatest y so far. -/
theorem maxCy_fold (records : List TouchEvent) :
    ∀ (l : List TouchEvent) (i cur : Nat),
      (∀ t, t < l.length → cyAt l t = cyAt records (i + t)) →
      cur ≤ i → (0 < i → cur < i) →
      (∀ j, j < i → cyAt records j ≤ cyAt records cur) →
      (∀ j, j < cur → cyAt records j < cyAt records cur) →
      (l.foldl (fun (st : Nat × Nat) event =>
          (if event.py > (records.map (fun e => e.py)).getD st.1 0 then st.2 else st.1,
            st.2 + 1)) (cur, i)).1 ≤ i + l.length ∧
      (0 < i + l.length →
        (l.foldl (fun (st : Nat × Nat) event =>
          (if event.py > (records.map (fun e => e.py)).getD st.1 0 then st.2 else st.1,
            st.2 + 1)) (cur, i)).1 < i + l.length) ∧
      (∀ j, j < i + l.length → cyAt records j ≤ cyAt records
        (l.foldl (fun (st : Nat × Nat) event =>
          (if event.py > (records.map (fun e => e.py)).getD st.1 0 then st.2 else st.1,
            st.2 + 1)) (cur, i)).1) ∧
      (∀ j, j < (l.foldl (fun (st : Nat × Nat) event =>
          (if event.py > (records.map (fun e => e.py)).getD st.1 0 then st.2 else st.1,
            st.2 + 1)) (cur, i)).1 →
        cyAt records j < cyAt records
          (l.foldl (fun (st : Nat × Nat) event =>
            (if event.py > (records.map (fun e => e.py)).getD st.1 0 then st.2 else st.1,
              st.2 + 1)) (cur, i)).1) := by
  intro l
  induction l with
  | nil =>
    intro i cur _ h1 h2 h3 h4
    exact ⟨h1, fun h => h2 h, fun j hj => h3 j hj, h4⟩
  | cons e t ih =>
    intro i cur hl h1 h2 h3 h4
    have he : e.py = cyAt records i := by
      have := hl 0 (by simp)
      simpa [cyAt] using this
    have ht : ∀ u, u < t.length → cyAt t u = cyAt records (i + 1 + u) := by
      intro u hu
      have := hl (u + 1) (by simp; omega)
      have e2 : i + (u + 1) = i + 1 + u := by omega
      rw [e2] at this
      rw [← this]
      simp [cyAt]
    have hcur : (records.map (fun e => e.py)).getD cur 0 = cyAt records cur := rfl
    simp only [List.foldl_cons, List.length_cons, hcur, he]
    have elen : i + (t.length + 1) = i + 1 + t.length := by omega
    rw [elen]
    by_cases hgt : cyAt records i > cyAt records cur
    · simp only [hgt, if_true]
      exact ih (i + 1) i ht (by omega) (fun _ => by omega)
        (fun j hj => by
          by_cases hji : j = i
          · subst hji
            exact le_refl _
          · have := h3 j (by omega)
            omega)
        (fun j hj => by
          have := h3 j hj
          omega)
    · simp only [hgt, if_false]
      exact ih (i + 1) cur ht (by omega) (fun _ => by omega)
        (fun j hj => by
          by_cases hji : j = i
          · subst hji
            omega
          · exact h3 j (by omega))
        h4

/-- The index found by the loop of the test is the first one of an event of greatest y. -/
theorem maxCyEventIndex_first_max (records : List TouchEvent) (hne : records ≠ []) :
    maxCyEventIndex records < records.length ∧
    (∀ j, j < records.length → cyAt records j ≤ cyAt records (maxCyEventIndex records)) ∧
    (∀ j, j < maxCyEventIndex records →
      cyAt records j < cyAt records (maxCyEventIndex records)) := by
  have h := maxCy_fold records records 0 0 (fun t _ => by rw [Nat.zero_add]) (Nat.le_refl _)
    (fun h => absurd h (Nat.lt_irrefl _)) (fun j hj => absurd hj (Nat.not_lt_zero _))
    (fun j hj => absurd hj (Nat.not_lt_zero _))
  simp only [Nat.zero_add] at h
  have hpos : 0 < records.length := List.length_pos.mpr hne
  exact ⟨h.2.1 hpos, h.2.2.1, h.2.2.2⟩

/-- A sequence whose y-coordinates do not decrease up to an index `a` and do not increase
from `a` on passes the check of the direction. -/
theorem yUnimodal_of_turn (records : List TouchEvent) (a : Nat)
    (hasc : ∀ i, i < a → i + 1 < records.length → cyAt records i ≤ cyAt records (i + 1))
    (hdesc : ∀ i, a ≤ i → i + 1 < records.length → cyAt records (i + 1) ≤ cyAt records i) :
    yUnimodal records := by
  intro idx hidx
  have hne : records ≠ [] := by
    intro hnil
    rw [hnil] at hidx
    simp at hidx
  obtain ⟨hlt, hmax, hfirst⟩ := maxCyEventIndex_first_max records hne
  have ascChain : ∀ d i, i + d ≤ a → i + d < records.length →
      cyAt records i ≤ cyAt records (i + d) := by
    intro d
    induction d with
    | zero => intro i _ _; exact le_refl _
    | succ d ih =>
      intro i h1 h2
      have s1 := ih i (by omega) (by omega)
      have s2 := hasc (i + d) (by omega) (by omega)
      have e : i + (d + 1) = i + d + 1 := by omega
      rw [e]
      omega
  have descChain : ∀ d i, a ≤ i → i + d < records.length →
      cyAt records (i + d) ≤ cyAt records i := by
    intro d
    induction d with
    | zero => intro i _ _; exact le_refl _
    | succ d ih =>
      intro i h1 h2
      have s1 := ih i h1 (by omega)
      have s2 := hdesc (i + d) (by omega) (by omega)
      have e : i + (d + 1) = i + d + 1 := by omega
      rw [e]
      omega
  refine ⟨?_, ?_⟩
  · intro hpeak
    by_cases ha : idx < a
    · exact hasc idx ha hidx
    · exfalso
      have s1 := descChain (maxCyEventIndex records - idx) idx (by omega) (by omega)
      have e : idx + (maxCyEventIndex records - idx) = maxCyEventIndex records := by omega
      rw [e] at s1
      have s2 := hfirst idx hpeak
      omega
  · intro hpeak
    by_cases ha : a ≤ idx
    · exact hdesc idx ha hidx
    · have s1 := ascChain (idx - maxCyEventIndex records) (maxCyEventIndex records)
        (by omega) (by omega)
      have e : maxCyEventIndex records + (idx - maxCyEventIndex records) = idx := by omega
      rw [e] at s1
      have s2 := hasc idx (by omega) hidx
      have s3 := hmax (idx + 1) hidx
      omega

/-- A scroll gesture has `moves + 2` events. -/
theorem scrollGesture_length (moves : Nat) (b : Rect) (up : Bool) :
    (scrollGesture moves b up).length = moves + 2 := by
  simp [scrollGesture]

/-- The y-coordinates of an upward scroll gesture, by index. -/
theorem scrollGesture_up_py (moves : Nat) (b : Rect) (i : Nat) (hi : i < moves + 2) :
    cyAt (scrollGesture moves b true) i =
      b.top + (b.height * (i : Int)) / ((moves : Int) + 1) := by
  simp [cyAt, scrollGesture, List.getD_eq_getElem?_getD, List.getElem?_range, hi]

/-- The y-coordinates of a downward scroll gesture, by index. -/
theorem scrollGesture_down_py (moves : Nat) (b : Rect) (i : Nat) (hi : i < moves + 2) :
    cyAt (scrollGesture moves b false) i =
      b.bottom - (b.height * (i : Int)) / ((moves : Int) + 1) := by
  simp [cyAt, scrollGesture, List.getD_eq_getElem?_getD, List.getElem?_range, hi]

/-- The steps of a scroll gesture on valid bounds grow with the index. -/
theorem scrollStep_mono (moves : Nat) (b : Rect) (hv : b.valid) (i : Nat) :
    (b.height * (i : Int)) / ((moves : Int) + 1) ≤
      (b.height * ((i + 1 : Nat) : Int)) / ((moves : Int) + 1) := by
  have hh : 0 ≤ b.height := by
    have := hv.2
    simp only [Rect.height]
    omega
  have hd : (0 : Int) < (moves : Int) + 1 := by omega
  apply Int.ediv_le_ediv hd
  apply Int.mul_le_mul_of_nonneg_left _ hh
  exact_mod_cast Nat.le_succ i

/-- The steps of a scroll gesture on valid bounds are not negative. -/
theorem scrollStep_nonneg (moves : Nat) (b : Rect) (hv : b.valid) (i : Nat) :
    0 ≤ (b.height * (i : Int)) / ((moves : Int) + 1) := by
  have hh : 0 ≤ b.height := by
    have := hv.2
    simp only [Rect.height]
    omega
  exact Int.ediv_nonneg (Int.mul_nonneg hh (Int.ofNat_nonneg i)) (by omega)

/-- The y-coordinates of an upward scroll gesture on valid bounds do not decrease. -/
theorem scrollGesture_up_ascending (moves : Nat) (b : Rect) (hv : b.valid) :
    yAscending (scrollGesture moves b true) := by
  intro idx hidx
  rw [scrollGesture_length] at hidx
  rw [scrollGesture_up_py moves b (idx + 1) hidx, scrollGesture_up_py moves b idx (by omega)]
  have := scrollStep_mono moves b hv idx
  omega

/-- The y-coordinates of a downward scroll gesture on valid bounds do not increase. -/
theorem scrollGesture_down_descending (moves : Nat) (b : Rect) (hv : b.valid) :
    yDescending (scrollGesture moves b false) := by
  intro idx hidx
  rw [scrollGesture_length] at hidx
  rw [scrollGesture_down_py moves b (idx + 1) hidx,
    scrollGesture_down_py moves b idx (by omega)]
  have := scrollStep_mono moves b hv idx
  omega

/-- The y-coordinate of an event in the first part of an appended sequence. -/
theorem cyAt_append_left (xs ys : List TouchEvent) (i : Nat) (h : i < xs.length) :
    cyAt (xs ++ ys) i = cyAt xs i := by
  simp only [cyAt, List.map_append]
  exact List.getD_append _ _ _ _ (by simpa using h)

/-- The y-coordinate of an event in the second part of an appended sequence. -/
theorem cyAt_append_right (xs ys : List TouchEvent) (i : Nat) (h : xs.length ≤ i) :
    cyAt (xs ++ ys) i = cyAt ys (i - xs.length) := by
  simp only [cyAt, List.map_append]
  rw [List.getD_append_right _ _ _ _ (by simpa using h)]
  simp

/-- The last step of a scroll gesture is the whole height. -/
theorem scrollStep_last (moves : Nat) (b : Rect) :
    (b.height * ((moves + 1 : Nat) : Int)) / ((moves : Int) + 1) = b.height := by
  have hd : ((moves : Int) + 1) ≠ 0 := by omega
  have e : ((moves + 1 : Nat) : Int) = (moves : Int) + 1 := by push_cast; rfl
  rw [e]
  exact Int.mul_ediv_cancel _ hd

/-- A downward scroll gesture on valid bounds passes the check of the direction. -/
theorem scrollGesture_down_unimodal (moves : Nat) (b : Rect) (hv : b.valid) :
    yUnimodal (scrollGesture moves b false) :=
  yUnimodal_of_turn _ 0 (fun _ hi _ => absurd hi (Nat.not_lt_zero _))
    (fun i _ hi => scrollGesture_down_descending moves b hv i hi)

/-- An upward scroll gesture followed by a downward one on the same valid bounds passes the
check of the direction, and on bounds of positive height the event of greatest y is the last
one of the upward gesture. -/
theorem scrollGesture_up_down (moves : Nat) (b : Rect) (hv : b.valid) :
    yUnimodal (scrollGesture moves b true ++ scrollGesture moves b false) ∧
    (0 < b.height →
      maxCyEventIndex (scrollGesture moves b true ++ scrollGesture moves b false) =
        moves + 1) := by
  have hlen : (scrollGesture moves b true ++ scrollGesture moves b false).length =
      moves + 2 + (moves + 2) := by
    simp [scrollGesture_length]
  have hupAt : ∀ i, i < moves + 2 →
      cyAt (scrollGesture moves b true ++ scrollGesture moves b false) i =
        b.top + (b.height * (i : Int)) / ((moves : Int) + 1) := by
    intro i hi
    rw [cyAt_append_left _ _ i (by rw [scrollGesture_length]; exact hi),
      scrollGesture_up_py moves b i hi]
  have hdownAt : ∀ i, i < moves + 2 →
      cyAt (scrollGesture moves b true ++ scrollGesture moves b false) (moves + 2 + i) =
        b.bottom - (b.height * (i : Int)) / ((moves : Int) + 1) := by
    intro i hi
    rw [cyAt_append_right _ _ _ (by rw [scrollGesture_length]; omega), scrollGesture_length,
      Nat.add_sub_cancel_left, scrollGesture_down_py moves b i hi]
  have hpeak : cyAt (scrollGesture moves b true ++ scrollGesture moves b false) (moves + 1) =
      b.bottom := by
    rw [hupAt (moves + 1) (by omega), scrollStep_last]
    simp only [Rect.height]
    omega
  refine ⟨?_, ?_⟩
  · apply yUnimodal_of_turn _ (moves + 1)
    · intro i hi _
      rw [hupAt i (by omega), hupAt (i + 1) (by omega)]
      have := scrollStep_mono moves b hv i
      omega
    · intro i hi hlt
      rw [hlen] at hlt
      by_cases hi1 : i = moves + 1
      · subst hi1
        rw [hpeak, hdownAt 0 (by omega)]
        simp
      · obtain ⟨u, rfl⟩ : ∃ u, i = moves + 2 + u := ⟨i - (moves + 2), by omega⟩
        have e : moves + 2 + u + 1 = moves + 2 + (u + 1) := by omega
        rw [e, hdownAt u (by omega), hdownAt (u + 1) (by omega)]
        have := scrollStep_mono moves b hv u
        omega
  · intro hpos
    have hne : scrollGesture moves b true ++ scrollGesture moves b false ≠ [] := by
      intro hnil
      rw [hnil] at hlen
      simp only [List.length_nil] at hlen
      omega
    obtain ⟨hlt, hmax, hfirst⟩ := maxCyEventIndex_first_max _ hne
    rw [hlen] at hlt hmax
    rcases Nat.lt_trichotomy
      (maxCyEventIndex (scrollGesture moves b true ++ scrollGesture moves b false))
      (moves + 1) with hlow | heq | hhigh
    · exfalso
      have s1 := hmax (moves + 1) (by omega)
      rw [hpeak, hupAt _ (by omega)] at s1
      have hd : (0 : Int) < (moves : Int) + 1 := by omega
      have s2 : (b.height *
          ((maxCyEventIndex (scrollGesture moves b true ++ scrollGesture moves b false) : Nat)
            : Int)) / ((moves : Int) + 1) < b.height := by
        apply Int.ediv_lt_of_lt_mul hd
        apply Int.mul_lt_mul_of_pos_left _ hpos
        exact_mod_cast hlow
      have hh : b.height = b.bottom - b.top := rfl
      omega
    · exact heq
    · exfalso
      have s1 := hfirst (moves + 1) hhigh
      rw [hpeak] at s1
      obtain ⟨u, hu⟩ : ∃ u,
          maxCyEventIndex (scrollGesture moves b true ++ scrollGesture moves b false) =
            moves + 2 + u :=
        ⟨maxCyEventIndex (scrollGesture moves b true ++ scrollGesture moves b false) -
          (moves + 2), by omega⟩
      rw [hu] at s1 hlt
      rw [hdownAt u (by omega)] at s1
      have := scrollStep_nonneg moves b hv u
      omega

/-! ## Properties of the scroll search -/

/-- C17: for every run of `ScrollSearch` in which the subject resolves with valid bounds in
every frame and the target is never found (the search ends at `q`, the second frame identical
to its predecessor), the search returns null and the gestures injected are `P` upward ones
followed by `q - P` downward ones, with `1 ≤ P < q`: there is a single reversal of the
direction. In every upward gesture the y-coordinates do not decrease from one event to the
next, in every downward one they do not increase. The events recorded by the test controller
are those of the last gesture, a downward one: they are not empty, and their y-coordinates do
not decrease before the event of greatest y, as located by the loop of the test, and do not
increase from it on. With a snapshot that is frozen from the start (`q = 2`) one upward and
one downward gesture are injected, and the same holds of all the events injected, taken
together; on bounds of positive height their event of greatest y is the last one of the
upward gesture. -/
theorem scroll_search_monotone (GetErrorName : ErrCode → String)
    (Describe : WidgetSelector → String) (moves fuel : Nat) (subject : WidgetImage)
    (target : WidgetSelector) (err : ApiCallErr) (startOffset : Int) (c : UiController)
    (q : Nat)
    (hq : 1 ≤ q ∧ Node.same (framesFrom c q) (framesFrom c (q - 1)) = true ∧
      frozenCount (framesFrom c) q = 2)
    (hfuel : q < fuel)
    (hno : ∀ j, j ≤ q → target.FindAll (framesFrom c j) = [])
    (hok : ∀ j, j ≤ q →
      ∃ node b, subject.resolve (framesFrom c j) = some node ∧ node.bounds = some b ∧
        b.valid) :
    ∃ c1 P,
      scrollSearchOn GetErrorName Describe moves fuel subject target err startOffset c =
        some { value := none, err := err, controller := c1 } ∧
      1 ≤ P ∧ P < q ∧
      c1.touchLog = c.touchLog ++
        ((List.range P).map (fun j =>
            scrollGesture moves (subjectBounds subject (framesFrom c j)) true) ++
          (List.range (q - P)).map (fun j =>
            scrollGesture moves (subjectBounds subject (framesFrom c (P + j))) false)) ∧
      (∀ j, j < P →
        yAscending (scrollGesture moves (subjectBounds subject (framesFrom c j)) true)) ∧
      (∀ j, P ≤ j → j < q →
        yDescending (scrollGesture moves (subjectBounds subject (framesFrom c j)) false)) ∧
      touch_event_records c1 =
        scrollGesture moves (subjectBounds subject (framesFrom c (q - 1))) false ∧
      touch_event_records c1 ≠ [] ∧
      yUnimodal (touch_event_records c1) ∧
      (q = 2 →
        (c1.touchLog.drop c.touchLog.length).flatten =
          scrollGesture moves (subjectBounds subject (framesFrom c 0)) true ++
            scrollGesture moves (subjectBounds subject (framesFrom c 0)) false ∧
        yUnimodal (c1.touchLog.drop c.touchLog.length).flatten ∧
        (0 < (subjectBounds subject (framesFrom c 0)).height →
          maxCyEventIndex (c1.touchLog.drop c.touchLog.length).flatten = moves + 1)) := by
  obtain ⟨hq1, hfz, hcount⟩ := hq
  obtain ⟨q0, rfl⟩ : ∃ q0, q = q0 + 1 := ⟨q - 1, by omega⟩
  simp only [Nat.add_sub_cancel] at hfz ⊢
  have hc1 : frozenCount (framesFrom c) q0 = 1 := by
    simp only [frozenCount, hfz, if_true] at hcount
    omega
  obtain ⟨p, hp, hsame, hzero, _, _⟩ := frozenCount_one _ q0 hc1
  obtain ⟨c1, hrun, _, hlog⟩ := scrollSearch_null GetErrorName Describe
    moves fuel subject target err startOffset c q0 hfz hcount
    (fun j hj => hno j (by omega))
    (fun j hj => by
      obtain ⟨n1, b1, h1, h2, _⟩ := hok j hj
      exact ⟨n1, b1, h1, h2⟩) (by omega)
  have hbounds : ∀ j, j ≤ q0 + 1 → (subjectBounds subject (framesFrom c j)).valid := by
    intro j hj
    obtain ⟨n1, b1, h1, h2, h3⟩ := hok j hj
    rw [subjectBounds_eq subject _ n1 b1 h1 h2]
    exact h3
  have hsplit : (List.range (q0 + 1)).map (gestureAt moves subject (framesFrom c)) =
      (List.range (p + 1)).map (fun j =>
          scrollGesture moves (subjectBounds subject (framesFrom c j)) true) ++
        (List.range (q0 + 1 - (p + 1))).map (fun j =>
          scrollGesture moves (subjectBounds subject (framesFrom c (p + 1 + j))) false) := by
    have e : List.range (q0 + 1) = List.range (p + 1 + (q0 + 1 - (p + 1))) := by
      congr 1
      omega
    rw [e, List.range_add, List.map_append, List.map_map]
    congr 1
    · apply List.map_congr_left
      intro j hj
      rw [List.mem_range] at hj
      simp only [gestureAt]
      rw [decide_eq_true (frozenCount_zero_before _ p j hzero (by omega))]
    · apply List.map_congr_left
      intro j _
      simp only [Function.comp, gestureAt]
      rw [decide_eq_false (frozenCount_pos_after _ p (p + 1 + j) hsame (by omega))]
  have hrec : touch_event_records c1 =
      scrollGesture moves (subjectBounds subject (framesFrom c q0)) false := by
    unfold touch_event_records
    rw [hlog, List.range_succ, List.map_append, ← List.append_assoc]
    simp only [List.map_cons, List.map_nil, List.getLast?_concat, Option.getD_some, gestureAt]
    rw [decide_eq_false (by rw [hc1]; exact Nat.one_ne_zero)]
  refine ⟨c1, p + 1, hrun, by omega, by omega, by rw [hlog, hsplit],
    fun j hj => scrollGesture_up_ascending moves _ (hbounds j (by omega)),
    fun j _ hj => scrollGesture_down_descending moves _ (hbounds j (by omega)),
    hrec, ?_, ?_, ?_⟩
  · rw [hrec]
    intro hnil
    have hlen := scrollGesture_length moves (subjectBounds subject (framesFrom c q0)) false
    rw [hnil] at hlen
    simp only [List.length_nil] at hlen
    omega
  · rw [hrec]
    exact scrollGesture_down_unimodal moves _ (hbounds q0 (by omega))
  · intro hq2
    have hq0 : q0 = 1 := by omega
    subst hq0
    have hp0 : p = 0 := by omega
    subst hp0
    have hf : framesFrom c 1 = framesFrom c 0 := Node.eq_of_same _ _ hsame
    have hflat : (c1.touchLog.drop c.touchLog.length).flatten =
        scrollGesture moves (subjectBounds subject (framesFrom c 0)) true ++
          scrollGesture moves (subjectBounds subject (framesFrom c 0)) false := by
      rw [hlog, List.drop_left, hsplit]
      simp [List.range_succ, hf]
    rw [hflat]
    exact ⟨rfl, scrollGesture_up_down moves _ (hbounds 0 (by omega))⟩

/-- C17, instance: the test `scrollSearchCheckDirection`: one frame served again and again,
the subject found by `text EQ "USB"` with bounds `[0,0][50,50]`, a target that is never
found, gestures of five events. One upward gesture and one downward gesture are injected,
with the y-coordinates 0, 12, 25, 37, 50 and 50, 38, 25, 13, 0; the events recorded are those
of the downward one. The assertions of the test hold of the events recorded, and also of all
the events injected, whose event of greatest y is the one of index 4. -/
theorem scroll_search_monotone_witness :
    (1 ≤ 2 ∧
      Node.same (framesFrom (MockController [childFrame "USB"]) 2)
        (framesFrom (MockController [childFrame "USB"]) (2 - 1)) = true ∧
      frozenCount (framesFrom (MockController [childFrame "USB"])) 2 = 2) ∧
    (scrollSearchOn specErrorName sampleDescribe 3 10 usbImage (textSelector "wyz")
      (ApiCallErr.ofCode specErrorName .NO_ERROR) 0 (MockController [childFrame "USB"])).map
        (fun o => (o.controller.touchLog.map (fun g => g.map (fun e => e.py)),
          (touch_event_records o.controller).map (fun e => e.py),
          checkDirection (touch_event_records o.controller),
          maxCyEventIndex o.controller.touchLog.flatten,
          checkDirection o.controller.touchLog.flatten)) =
      some ([[0, 12, 25, 37, 50], [50, 38, 25, 13, 0]], [50, 38, 25, 13, 0], true, 4, true) ∧
    ∃ c1,
      scrollSearchOn specErrorName sampleDescribe 3 10 usbImage (textSelector "wyz")
        (ApiCallErr.ofCode specErrorName .NO_ERROR) 0 (MockController [childFrame "USB"]) =
        some { value := none, err := ApiCallErr.ofCode specErrorName .NO_ERROR,
               controller := c1 } ∧
      c1.touchLog = (MockController [childFrame "USB"]).touchLog ++
        [scrollGesture 3
            (subjectBounds usbImage (framesFrom (MockController [childFrame "USB"]) 0)) true,
          scrollGesture 3
            (subjectBounds usbImage (framesFrom (MockController [childFrame "USB"]) 1)) false] ∧
      touch_event_records c1 ≠ [] ∧
      yUnimodal (touch_event_records c1) ∧
      yUnimodal (c1.touchLog.drop (MockController [childFrame "USB"]).touchLog.length).flatten ∧
      maxCyEventIndex
        (c1.touchLog.drop (MockController [childFrame "USB"]).touchLog.length).flatten =
          3 + 1 := by
  refine ⟨by decide, by decide, ?_⟩
  obtain ⟨c1, P, hrun, hP1, hP2, hlog, _, _, _, hne, huni, hall⟩ :=
    scroll_search_monotone specErrorName sampleDescribe 3 10 usbImage (textSelector "wyz")
      (ApiCallErr.ofCode specErrorName .NO_ERROR) 0 (MockController [childFrame "USB"]) 2
      (by decide) (by decide)
      (fun j hj => by interval_cases j <;> rfl)
      (fun j hj => by
        interval_cases j <;>
          exact ⟨_, _, rfl, rfl, by unfold Rect.valid; decide⟩)
  have hP : P = 1 := by omega
  subst hP
  exact ⟨c1, hrun, hlog, hne, huni, (hall rfl).2.1, (hall rfl).2.2 (by decide)⟩

end OHOS.uitest
